import Mathlib

/-!
# Verification of the STLD/STAR toolchain core against its specification

This file gives a shallow embedding, in Lean 4, of the parts of the
STLD linker / STAR archiver C sources that the specification's claims
are about, and settles each claim against that embedding.

Embedding conventions:
* machine integers (`uint8_t` … `uint32_t`, `size_t`) are `Nat`, with an
  explicit `% 2^w` wherever the C arithmetic can wrap;
* byte buffers and files are `List Nat` (each element intended `< 256`);
* fallible C functions returning a pointer or an error code become
  functions into `Option` / a sum of an error code and a result;
* struct fields keep the C field names (camel-cased only where the C
  name is not a legal Lean identifier).
-/

namespace Stld

/-! ## Error codes (src/common/include/error.h) -/

def ERROR_SUCCESS : Int := 0
def ERROR_INVALID_ARGUMENT : Int := -1
def ERROR_OUT_OF_MEMORY : Int := -2
def ERROR_FILE_IO : Int := -4
def ERROR_CORRUPT_HEADER : Int := -12
def ERROR_SYMBOL_NOT_FOUND : Int := -20
def ERROR_DUPLICATE_SYMBOL : Int := -21

/-! ## Little-endian byte serialization helpers

C `fwrite` of a packed struct lays each `uintN_t` field out as N/8
little-endian bytes (the formats are written in host order and the
reference host is little-endian).  `le16`/`le32` produce those bytes,
`rd16`/`rd32` reassemble them. -/

def le16 (n : Nat) : List Nat := [n % 256, n / 256 % 256]

def le32 (n : Nat) : List Nat :=
  [n % 256, n / 256 % 256, n / 2 ^ 16 % 256, n / 2 ^ 24 % 256]

def rd16 (b0 b1 : Nat) : Nat := b0 + 256 * b1

def rd32 (b0 b1 b2 b3 : Nat) : Nat :=
  b0 + 256 * b1 + 2 ^ 16 * b2 + 2 ^ 24 * b3

theorem le16_length (n : Nat) : (le16 n).length = 2 := rfl

theorem le32_length (n : Nat) : (le32 n).length = 4 := rfl

theorem rd16_le16 (n : Nat) : rd16 (n % 256) (n / 256 % 256) = n % 2 ^ 16 := by
  simp only [rd16]; omega

theorem rd32_le32 (n : Nat) :
    rd32 (n % 256) (n / 256 % 256) (n / 2 ^ 16 % 256) (n / 2 ^ 24 % 256) = n % 2 ^ 32 := by
  simp only [rd32]; omega

/-! ## SMOF header (src/common/include/smof.h)

The packed `smof_header_t`; `sizeof(smof_header_t)` is 36. -/

def SMOF_MAGIC : Nat := 0x534D4F46

def SMOF_VERSION_CURRENT : Nat := 1

def SMOF_FLAG_LITTLE_ENDIAN : Nat := 0x0100
def SMOF_FLAG_BIG_ENDIAN : Nat := 0x0200

structure SmofHeader where
  magic : Nat
  version : Nat
  flags : Nat
  entry_point : Nat
  section_count : Nat
  symbol_count : Nat
  string_table_offset : Nat
  string_table_size : Nat
  section_table_offset : Nat
  reloc_table_offset : Nat
  reloc_count : Nat
  import_count : Nat
deriving DecidableEq, Repr

/-- `sizeof(smof_header_t)`: 4+2+2+4+2+2+4+4+4+4+2+2 packed bytes. -/
def smofHeaderSize : Nat := 36

/-- `sizeof(smof_section_t)`: 4+4+4+4+2+1+1 packed bytes. -/
def smofSectionSize : Nat := 20

/-- `sizeof(smof_relocation_t)`: 4+2+1+1 packed bytes. -/
def smofRelocationSize : Nat := 8

/-- The `little_endian` local of `smof_validate_header` after the
STAS-compatible fallback: bit 8 (`0x0100`), or bit 4 (`0x0010`) when
neither primary endianness bit is set. -/
def smofEffectiveLittle (flags : Nat) : Bool :=
  if ¬flags.testBit 8 ∧ ¬flags.testBit 9 then flags.testBit 4
  else flags.testBit 8

/-- The `big_endian` local of `smof_validate_header` after the
STAS-compatible fallback: bit 9 (`0x0200`), or bit 5 (`0x0020`) when
neither primary endianness bit is set. -/
def smofEffectiveBig (flags : Nat) : Bool :=
  if ¬flags.testBit 8 ∧ ¬flags.testBit 9 then flags.testBit 5
  else flags.testBit 9

/-- `smof_validate_header` (src/common/smof.c, non-NULL argument).
Returns `true` for the C `1` and `false` for `0`; every check is
transcribed in source order. -/
def smof_validate_header (h : SmofHeader) : Bool :=
  -- Check magic
  if h.magic ≠ SMOF_MAGIC then false
  -- Check version
  else if h.version > SMOF_VERSION_CURRENT then false
  else
    -- Check endianness flags, with the STAS-compatible fallback
    let little_endian := smofEffectiveLittle h.flags
    let big_endian := smofEffectiveBig h.flags
    if little_endian ∧ big_endian then false
    else if ¬little_endian ∧ ¬big_endian then false
    -- Sanity checks
    else if h.section_count > 256 then false
    else if h.symbol_count > 32767 then false
    else if h.string_table_size > 1048576 then false
    -- Validate table offsets
    else if h.section_table_offset > 0 ∧ h.section_table_offset < smofHeaderSize then false
    else if h.string_table_offset > 0 ∧ h.string_table_offset < smofHeaderSize then false
    else if h.reloc_table_offset > 0 ∧ h.reloc_table_offset < smofHeaderSize then false
    -- Check for overlapping tables
    else if h.section_count > 0 ∧
        (h.string_table_offset > 0 ∧
         h.string_table_offset > h.section_table_offset ∧
         h.string_table_offset < h.section_table_offset + h.section_count * smofSectionSize) then
      false
    else if h.reloc_count > 0 ∧
        (h.string_table_offset > 0 ∧
         h.string_table_offset > h.reloc_table_offset ∧
         h.string_table_offset < h.reloc_table_offset + h.reloc_count * smofRelocationSize) then
      false
    else true

/-- The alternate SMOF magic constant discussed by the spec: the bytes
`53 4D 4F 46` (`"SMOF"`) read by a little-endian reader. -/
def SMOF_MAGIC_ALT : Nat := 0x464F4D53

/-- A concrete header that passes every `smof_validate_header` check
(magic `SMOF_MAGIC`, version 1, little-endian flag, empty tables). -/
def smofOkHeader : SmofHeader :=
  { magic := SMOF_MAGIC
    version := 1
    flags := SMOF_FLAG_LITTLE_ENDIAN
    entry_point := 0
    section_count := 0
    symbol_count := 0
    string_table_offset := smofHeaderSize
    string_table_size := 0
    section_table_offset := smofHeaderSize
    reloc_table_offset := 0
    reloc_count := 0
    import_count := 0 }

example : smof_validate_header smofOkHeader = true := by decide

/-! ## STAR header validation (src/star/archive.c, src/star/include/star.h) -/

def STAR_MAGIC : Nat := 0x53544152
def STAR_VERSION : Nat := 1
def STAR_MAX_MEMBERS : Nat := 65535

def STAR_FLAG_COMPRESSED : Nat := 0x01
def STAR_FLAG_INDEXED : Nat := 0x02
def STAR_FLAG_SORTED : Nat := 0x04
def STAR_FLAG_LITTLE_ENDIAN : Nat := 0x10
def STAR_FLAG_BIG_ENDIAN : Nat := 0x20

structure StarHeader where
  magic : Nat
  version : Nat
  flags : Nat
  member_count : Nat
  index_offset : Nat
  index_size : Nat
  member_table_offset : Nat
  string_table_offset : Nat
  string_table_size : Nat
  creation_time : Nat
  checksum : Nat
deriving DecidableEq, Repr

/-- `sizeof(star_header_t)` (64, checked by a `_Static_assert`). -/
def starHeaderSize : Nat := 64

/-- `sizeof(star_member_header_t)` (128, checked by a `_Static_assert`). -/
def starMemberHeaderSize : Nat := 128

/-- `archive_validate_header` (src/star/archive.c, non-NULL argument). -/
def archive_validate_header (h : StarHeader) : Bool :=
  -- Check magic
  if h.magic ≠ STAR_MAGIC then false
  -- Check version
  else if h.version ≠ STAR_VERSION then false
  -- Check member count
  else if h.member_count > STAR_MAX_MEMBERS then false
  -- Validate offsets
  else if h.member_table_offset > 0 ∧ h.member_table_offset < starHeaderSize then false
  else if h.string_table_offset > 0 ∧ h.string_table_offset < starHeaderSize then false
  else true

/-- A concrete header that passes every `archive_validate_header` check. -/
def starOkHeader : StarHeader :=
  { magic := STAR_MAGIC
    version := 1
    flags := STAR_FLAG_LITTLE_ENDIAN
    member_count := 0
    index_offset := 0
    index_size := 0
    member_table_offset := starHeaderSize
    string_table_offset := starHeaderSize
    string_table_size := 1
    creation_time := 0
    checksum := 0 }

example : archive_validate_header starOkHeader = true := by decide

/-! ## CRC-32 (src/star/archive.c)

The C code builds a 256-entry table once (`init_crc32_table`) and then
folds over the data.  `crc32_table n` computes the table entry for index
`n` on demand; this is extensionally the initialized `crc32_table[n]`. -/

def crc32_step (c : Nat) : Nat :=
  if c % 2 = 1 then 0xedb88320 ^^^ c / 2 else c / 2

def crc32_table (n : Nat) : Nat := crc32_step^[8] n

/-- The loop body of `archive_calculate_checksum`:
`crc = crc32_table[(crc ^ buf[i]) & 0xff] ^ (crc >> 8)`. -/
def crcUpdate (crc b : Nat) : Nat :=
  crc32_table ((crc ^^^ b) % 256) ^^^ crc / 2 ^ 8

/-- `archive_calculate_checksum` (src/star/archive.c). -/
def archive_calculate_checksum (data : List Nat) : Nat :=
  (data.foldl crcUpdate 0xffffffff) ^^^ 0xffffffff

/-! ## Memory pool (src/common/memory.c)

`size_t` arithmetic on the reference host is 64-bit and wraps
modulo `2^64`. -/

def SIZE_T_MOD : Nat := 2 ^ 64

def MEMORY_POOL_ALIGN : Nat := 8
def MEMORY_POOL_MIN_SIZE : Nat := 64
def MEMORY_POOL_MAX_SIZE : Nat := 1024 * 1024

structure MemoryPool where
  size : Nat
  used : Nat
  peak_used : Nat
  allocations : Nat
  deallocations : Nat
  alignment : Nat
deriving DecidableEq, Repr

/-- `memory_pool_create` (rejects sizes outside `[MIN_SIZE, MAX_SIZE]`;
the `malloc` failure path is not modelled). -/
def memory_pool_create (size : Nat) : Option MemoryPool :=
  if size < MEMORY_POOL_MIN_SIZE ∨ size > MEMORY_POOL_MAX_SIZE then none
  else some { size := size, used := 0, peak_used := 0, allocations := 0,
              deallocations := 0, alignment := MEMORY_POOL_ALIGN }

/-- `memory_align_size`: `(size + alignment - 1) & ~(alignment - 1)` in
`size_t` arithmetic.  For a power-of-two `alignment` (the pool always
uses 8), the mask clears the low bits, i.e. subtracts `w % alignment`. -/
def memory_align_size (size alignment : Nat) : Nat :=
  if alignment = 0 ∨ alignment = 1 then size
  else
    let w := (size + alignment - 1) % SIZE_T_MOD
    w - w % alignment

/-- `memory_pool_alloc` (non-NULL pool).  The returned `Bool` is whether
the C function returns a non-NULL pointer; the pool is returned updated
on success and unchanged on failure, as in the C. -/
def memory_pool_alloc (pool : MemoryPool) (size : Nat) : MemoryPool × Bool :=
  if size = 0 then (pool, false)
  else
    let aligned_size := memory_align_size size pool.alignment
    -- if (pool->used + aligned_size > pool->size) : pool exhausted
    if (pool.used + aligned_size) % SIZE_T_MOD > pool.size then (pool, false)
    else
      let used' := (pool.used + aligned_size) % SIZE_T_MOD
      ({ pool with
          used := used'
          allocations := (pool.allocations + 1) % SIZE_T_MOD
          peak_used := if used' > pool.peak_used then used' else pool.peak_used },
       true)

/-- `memory_pool_calloc` (non-NULL pool). -/
def memory_pool_calloc (pool : MemoryPool) (count size : Nat) : MemoryPool × Bool :=
  if count = 0 ∨ size = 0 then (pool, false)
  else if count > (SIZE_T_MOD - 1) / size then (pool, false)  -- overflow check
  else memory_pool_alloc pool (count * size)

/-- `memory_pool_free` with a non-NULL pointer: only counts the call. -/
def memory_pool_free (pool : MemoryPool) : MemoryPool :=
  { pool with deallocations := (pool.deallocations + 1) % SIZE_T_MOD }

/-- `memory_pool_reset`. -/
def memory_pool_reset (pool : MemoryPool) : MemoryPool :=
  { pool with used := 0 }

/-- One user-visible pool operation, for quantifying over call sequences. -/
inductive PoolOp where
  | alloc (size : Nat)
  | calloc (count size : Nat)
  | free
  | reset
deriving DecidableEq, Repr

def runPoolOp (pool : MemoryPool) : PoolOp → MemoryPool
  | .alloc s => (memory_pool_alloc pool s).1
  | .calloc c s => (memory_pool_calloc pool c s).1
  | .free => memory_pool_free pool
  | .reset => memory_pool_reset pool

def runPoolOps (pool : MemoryPool) (ops : List PoolOp) : MemoryPool :=
  ops.foldl runPoolOp pool

/-! ## STLD linker driver (src/stld/linker.c)

`load_smof_file` reads only the 36-byte header from each input file
(one `fread` of `sizeof(header)`), validates it, and then pushes a
fixed `".text"` section and a fixed `"_start"` symbol; the input's own
section, symbol and relocation tables are never read.  An input file is
therefore modelled as the data a SMOF file carries; only the header
part is consumed by the code. -/

inductive StldOutputType where
  | executable | shared_library | static_library | object | binary_flat
deriving DecidableEq, Repr

/-- The fields of `stld_options_t` read by `stld_link`; the remaining
options (`optimize`, `strip_debug`, …) are never consulted on the
modelled paths. -/
structure StldOptions where
  output_type : StldOutputType
  entry_point : Nat
  base_address : Nat
deriving DecidableEq, Repr

/-- `stld_get_default_options`, restricted to the modelled fields. -/
def stld_get_default_options : StldOptions :=
  { output_type := .executable, entry_point := 0, base_address := 0x1000 }

/-- A symbol record of an input SMOF file (`smof_symbol_t` fields). -/
structure SmofSymbolRec where
  name : List Nat
  value : Nat
  size : Nat
  section_index : Nat
  type : Nat
  binding : Nat
deriving DecidableEq, Repr

/-- A section of an input SMOF file together with its payload bytes. -/
structure SmofSectionRec where
  name : List Nat
  data : List Nat
deriving DecidableEq, Repr

/-- An input SMOF object file: the header plus the tables behind it. -/
structure SmofInputFile where
  header : SmofHeader
  sections : List SmofSectionRec
  symbols : List SmofSymbolRec
deriving DecidableEq, Repr

/-- `symbol_entry_t` fields assigned by `load_smof_file` (the others are
left uninitialized by the C code). -/
structure StldSymbolEntry where
  name : List Nat
  value : Nat
deriving DecidableEq, Repr

/-- `section_entry_t` fields assigned by `load_smof_file`. -/
structure StldSectionEntry where
  name : List Nat
  size : Nat
deriving DecidableEq, Repr

/-- The `stld_context` collections built during a link.  The C
`stld_context_create` never initializes the `relocations` list; the
model takes the favourable reading that it is empty. -/
structure StldContext where
  options : StldOptions
  symbols : List StldSymbolEntry
  sections : List StldSectionEntry
deriving DecidableEq, Repr

/-- ASCII bytes of `".text"`. -/
def textName : List Nat := [46, 116, 101, 120, 116]

/-- ASCII bytes of `"_start"`. -/
def startName : List Nat := [95, 115, 116, 97, 114, 116]

/-- `load_smof_file`: validate the header, then push the fixed section
and symbol (allocation-failure paths are not modelled). -/
def load_smof_file (ctx : StldContext) (input : SmofInputFile) : Int × StldContext :=
  if ¬ smof_validate_header input.header then (ERROR_CORRUPT_HEADER, ctx)
  else
    (ERROR_SUCCESS,
     { ctx with
        sections := { name := textName, size := 0 } :: ctx.sections
        symbols := { name := startName, value := 0 } :: ctx.symbols })

/-- `process_relocations` over the context's (empty) relocation list:
no entry is examined, so `unresolved_count` stays 0. -/
def process_relocations (_ctx : StldContext) : Int := ERROR_SUCCESS

/-- Serialization of `smof_header_t` as written by `fwrite` (packed,
little-endian host). -/
def encodeSmofHeader (h : SmofHeader) : List Nat :=
  le32 h.magic ++ le16 h.version ++ le16 h.flags ++ le32 h.entry_point ++
  le16 h.section_count ++ le16 h.symbol_count ++ le32 h.string_table_offset ++
  le32 h.string_table_size ++ le32 h.section_table_offset ++
  le32 h.reloc_table_offset ++ le16 h.reloc_count ++ le16 h.import_count

/-- The header `stld_link` writes for non-flat output types. -/
def stldOutputHeader (options : StldOptions) : SmofHeader :=
  { magic := SMOF_MAGIC
    version := SMOF_VERSION_CURRENT
    flags := SMOF_FLAG_LITTLE_ENDIAN
    entry_point := options.base_address % 2 ^ 32
    section_count := 1
    symbol_count := 1
    string_table_offset := smofHeaderSize
    string_table_size := 16
    section_table_offset := smofHeaderSize + 16
    reloc_table_offset := 0
    reloc_count := 0
    import_count := 0 }

/-- `stld_link` (non-NULL context and output path): load every input,
process relocations, then write the output file.  The second component
is the bytes of the output file, or `none` when no output file is
created.  On the flat-binary path the C writes the four literal bytes
`{0x90, 0x90, 0x90, 0x90}` (`dummy_data`). -/
def stld_link (options : StldOptions) (inputs : List SmofInputFile) :
    Int × Option (List Nat) :=
  let ctx0 : StldContext := { options := options, symbols := [], sections := [] }
  let loaded : Int × StldContext :=
    inputs.foldl
      (fun acc input =>
        if acc.1 ≠ ERROR_SUCCESS then acc
        else load_smof_file acc.2 input)
      (ERROR_SUCCESS, ctx0)
  if loaded.1 ≠ ERROR_SUCCESS then (loaded.1, none)
  else
    let r := process_relocations loaded.2
    if r ≠ ERROR_SUCCESS then (r, none)
    else if options.output_type = .binary_flat then
      (ERROR_SUCCESS, some [0x90, 0x90, 0x90, 0x90])
    else
      (ERROR_SUCCESS, some (encodeSmofHeader (stldOutputHeader options)))

/-- `stld_link_files`: argument checks, then create a context, add the
inputs and link (context creation and file-name copying cannot fail in
the model). -/
def stld_link_files (inputs : List SmofInputFile) (options : StldOptions) :
    Int × Option (List Nat) :=
  if inputs.length = 0 then (ERROR_INVALID_ARGUMENT, none)
  else stld_link options inputs

/-! ## STAR archive writer / reader (src/star/archive.c)

The in-memory `archive_file_t` carries the header, the member array and
the string table.  The C keeps `header.member_count` and
`header.string_table_size` in lockstep with the member array and the
string-table buffer (both are updated together in
`archive_add_member_from_file` / `archive_add_string`), so the model
derives them as `members.length` and `stringTable.length`, applying the
`uint32_t` truncation at the points where the C reads the fields. -/

/-- `star_member_header_t`, without the reserved padding bytes. -/
structure StarMemberHeader where
  name_offset : Nat
  size : Nat
  compressed_size : Nat
  data_offset : Nat
  checksum : Nat
  timestamp : Nat
  flags : Nat
  compression : Nat
deriving DecidableEq, Repr

/-- `archive_member_t` for a member added by
`archive_add_member_from_file` (`data_loaded` is `true`). -/
structure ArchiveMember where
  header : StarMemberHeader
  name : List Nat
  data : List Nat
deriving DecidableEq, Repr

/-- The writable `archive_file_t` state. -/
structure ArchiveFile where
  flags : Nat
  creation_time : Nat
  members : List ArchiveMember
  stringTable : List Nat
deriving DecidableEq, Repr

/-- `archive_create`: fresh writable archive.  `flags` stands for the
option- and endianness-derived flag bits, `ctime` for `time(NULL)`.
The string table starts as the single NUL of the empty string. -/
def archive_create (flags ctime : Nat) : ArchiveFile :=
  { flags := flags, creation_time := ctime, members := [], stringTable := [0] }

/-- The NUL-terminated string stored at offset `i` of string table `t`
(what `strcmp`/`strcpy` see at `&t[i]`). -/
def strAt (t : List Nat) (i : Nat) : List Nat :=
  (t.drop i).takeWhile (· ≠ 0)

/-- The scan loop of `archive_add_string`: starting at string start `i`,
return the offset of an existing copy of `s`, hopping from one
NUL-terminated string to the next. -/
def findStringFrom (t s : List Nat) (i : Nat) : Option Nat :=
  if i < t.length then
    if strAt t i = s then some i
    else findStringFrom t s (i + (strAt t i).length + 1)
  else none
termination_by t.length - i
decreasing_by simp_wf; omega

/-- `archive_add_string` (non-NULL arguments): return the offset of an
existing equal string, else append `s` plus its NUL terminator. -/
def archive_add_string (a : ArchiveFile) (s : List Nat) : Nat × ArchiveFile :=
  match findStringFrom a.stringTable s 0 with
  | some off => (off, a)
  | none => (a.stringTable.length, { a with stringTable := a.stringTable ++ s ++ [0] })

/-- `archive_add_member_from_file` on a writable archive whose input
file holds bytes `data` with modification time `mtime` (the `stat` /
`fread` I/O cannot fail in the model).  `st_size` is cast to
`uint32_t` when stored. -/
def archive_add_member (a : ArchiveFile) (name data : List Nat) (mtime : Nat) :
    ArchiveFile :=
  let r := archive_add_string a name
  { r.2 with
      members := r.2.members ++
        [{ header :=
             { name_offset := r.1
               size := data.length % 2 ^ 32
               compressed_size := data.length % 2 ^ 32  -- no compression for now
               data_offset := 0
               checksum := archive_calculate_checksum data
               timestamp := mtime % 2 ^ 32
               flags := 0
               compression := 0 }
           name := name
           data := data }] }

/-- The member-table loop of `archive_finalize`: assign each member's
`data_offset` from the running `uint32_t` cursor and advance it by the
member's `size`. -/
def patchDataOffsets (off : Nat) : List ArchiveMember → List ArchiveMember
  | [] => []
  | m :: rest =>
      { m with header := { m.header with data_offset := off } } ::
      patchDataOffsets ((off + m.header.size) % 2 ^ 32) rest

/-- Serialization of `star_header_t` as laid out in the file
(`fwrite` of the packed 64-byte struct, little-endian host). -/
def encodeStarHeader (h : StarHeader) : List Nat :=
  le32 h.magic ++ le16 h.version ++ le16 h.flags ++ le32 h.member_count ++
  le32 h.index_offset ++ le32 h.index_size ++ le32 h.member_table_offset ++
  le32 h.string_table_offset ++ le32 h.string_table_size ++
  le32 h.creation_time ++ le32 h.checksum ++ List.replicate 24 0

/-- Serialization of `star_member_header_t` (128 bytes; the reserved
bytes are zero from the `memset` in `archive_add_member_from_file`). -/
def encodeStarMemberHeader (m : StarMemberHeader) : List Nat :=
  le32 m.name_offset ++ le32 m.size ++ le32 m.compressed_size ++
  le32 m.data_offset ++ le32 m.checksum ++ le32 m.timestamp ++
  le16 m.flags ++ [m.compression % 256, 0] ++ List.replicate 100 0

/-- The header contents at entry to the final `archive_write_header`
call of `archive_finalize`: offsets recomputed, `checksum` still
holding its initial 0. -/
def finalizeHeader (a : ArchiveFile) : StarHeader :=
  let n := a.members.length % 2 ^ 32
  { magic := STAR_MAGIC
    version := STAR_VERSION
    flags := a.flags
    member_count := n
    index_offset := 0
    index_size := 0
    member_table_offset := starHeaderSize
    string_table_offset := (starHeaderSize + n * starMemberHeaderSize) % 2 ^ 32
    string_table_size := a.stringTable.length % 2 ^ 32
    creation_time := a.creation_time
    checksum := 0 }

/-- `archive_write_header`'s checksum: CRC-32 of
`sizeof(star_header_t) - sizeof(uint32_t)` = 60 bytes of the header
struct, starting at its first byte — i.e. the first 60 bytes of the
serialized header, checksum field included. -/
def archive_write_header_checksum (h : StarHeader) : Nat :=
  archive_calculate_checksum ((encodeStarHeader h).take (starHeaderSize - 4))

/-- `archive_finalize` on a writable archive: compute the offsets,
patch the member `data_offset`s, write member table, string table,
member payloads and finally the header.  Returns the updated in-memory
archive and the bytes the write sequence produces when every `fwrite`
succeeds; `archive_finalize_io` below adds the `fwrite` success checks
and models the C function's error code. -/
def archive_finalize (a : ArchiveFile) : ArchiveFile × List Nat :=
  let h0 := finalizeHeader a
  let dataStart := (h0.string_table_offset + h0.string_table_size) % 2 ^ 32
  let members' := patchDataOffsets dataStart a.members
  let h1 := { h0 with checksum := archive_write_header_checksum h0 }
  let file :=
    encodeStarHeader h1 ++
    (members'.map (fun m => encodeStarMemberHeader m.header)).flatten ++
    a.stringTable ++
    (members'.map (fun m => m.data.take m.header.size)).flatten
  ({ a with members := members' }, file)

/-- `archive_finalize` with its `fwrite` success checks (the C function
returns an `int` error code): with no real I/O errors, `fwrite(ptr,
size, 1, f)` returns 1 unless `size` is 0, in which case it returns 0
(C99 7.19.8.2).  The 128-byte member-header writes and the final
64-byte header write always succeed, but the function returns
`ERROR_FILE_IO` — before `archive_write_header` ever runs, so no valid
header is produced — when the string-table write size
`header.string_table_size` is 0 or some member payload write size
`header.size` is 0.  On success the produced bytes are those of
`archive_finalize`. -/
def archive_finalize_io (a : ArchiveFile) : Option (ArchiveFile × List Nat) :=
  if (finalizeHeader a).string_table_size ≠ 0 ∧
      ∀ m ∈ a.members, m.header.size ≠ 0 then
    some (archive_finalize a)
  else none

/-- The canonical image of a header after one serialize/parse cycle:
every field truncated to its on-disk width. -/
def canonStarHeader (h : StarHeader) : StarHeader :=
  { magic := h.magic % 2 ^ 32
    version := h.version % 2 ^ 16
    flags := h.flags % 2 ^ 16
    member_count := h.member_count % 2 ^ 32
    index_offset := h.index_offset % 2 ^ 32
    index_size := h.index_size % 2 ^ 32
    member_table_offset := h.member_table_offset % 2 ^ 32
    string_table_offset := h.string_table_offset % 2 ^ 32
    string_table_size := h.string_table_size % 2 ^ 32
    creation_time := h.creation_time % 2 ^ 32
    checksum := h.checksum % 2 ^ 32 }

/-- Parse the leading 64 bytes of a file as a `star_header_t`
(`fread(&header, sizeof(star_header_t), 1, file)`). -/
def parseStarHeader : List Nat → Option StarHeader
  | a0 :: a1 :: a2 :: a3 :: b0 :: b1 :: c0 :: c1 :: d0 :: d1 :: d2 :: d3 ::
    e0 :: e1 :: e2 :: e3 :: f0 :: f1 :: f2 :: f3 :: g0 :: g1 :: g2 :: g3 ::
    i0 :: i1 :: i2 :: i3 :: j0 :: j1 :: j2 :: j3 :: k0 :: k1 :: k2 :: k3 ::
    l0 :: l1 :: l2 :: l3 :: rest =>
      if rest.length < 24 then none
      else some
        { magic := rd32 a0 a1 a2 a3
          version := rd16 b0 b1
          flags := rd16 c0 c1
          member_count := rd32 d0 d1 d2 d3
          index_offset := rd32 e0 e1 e2 e3
          index_size := rd32 f0 f1 f2 f3
          member_table_offset := rd32 g0 g1 g2 g3
          string_table_offset := rd32 i0 i1 i2 i3
          string_table_size := rd32 j0 j1 j2 j3
          creation_time := rd32 k0 k1 k2 k3
          checksum := rd32 l0 l1 l2 l3 }
  | _ => none

/-- `archive_open` in mode `"rb"`: read the 64-byte header and validate
it; `NULL` (here `none`) on a short read or an invalid header. -/
def archive_open_read (f : List Nat) : Option StarHeader :=
  match parseStarHeader f with
  | none => none
  | some h => if archive_validate_header h then some h else none

/-- A member as produced by `archive_load_members`: header plus the
name copied out of the string table (`NULL` when `name_offset` is out
of range); `data` stays unloaded (`data_loaded = false`). -/
structure DecodedMember where
  header : StarMemberHeader
  name : Option (List Nat)
deriving DecidableEq, Repr

/-- Parse one 128-byte `star_member_header_t` from the stream,
returning the remaining bytes. -/
def parseMemberHeader : List Nat → Option (StarMemberHeader × List Nat)
  | a0 :: a1 :: a2 :: a3 :: b0 :: b1 :: b2 :: b3 :: c0 :: c1 :: c2 :: c3 ::
    d0 :: d1 :: d2 :: d3 :: e0 :: e1 :: e2 :: e3 :: f0 :: f1 :: f2 :: f3 ::
    g0 :: g1 :: i0 :: _i1 :: rest =>
      if rest.length < 100 then none
      else some
        ({ name_offset := rd32 a0 a1 a2 a3
           size := rd32 b0 b1 b2 b3
           compressed_size := rd32 c0 c1 c2 c3
           data_offset := rd32 d0 d1 d2 d3
           checksum := rd32 e0 e1 e2 e3
           timestamp := rd32 f0 f1 f2 f3
           flags := rd16 g0 g1
           compression := i0 },
         rest.drop 100)
  | _ => none

/-- Parse `n` consecutive member headers. -/
def parseMembers : Nat → List Nat → Option (List StarMemberHeader)
  | 0, _ => some []
  | n + 1, bytes =>
      match parseMemberHeader bytes with
      | none => none
      | some r => (parseMembers n r.2).map (r.1 :: ·)

/-- `archive_load_members` on a freshly opened archive with header `h`
and file bytes `f`: load the string table (when non-empty), read the
member headers in table order, and copy each name whose offset is in
range. -/
def archive_load_members (f : List Nat) (h : StarHeader) :
    Option (List DecodedMember) :=
  if h.member_count = 0 then some []
  else
    let tbl : Option (List Nat) :=
      if h.string_table_size > 0 then
        if h.string_table_offset + h.string_table_size ≤ f.length then
          some ((f.drop h.string_table_offset).take h.string_table_size)
        else none  -- fread fails
      else some []
    match tbl with
    | none => none
    | some t =>
        match parseMembers h.member_count (f.drop h.member_table_offset) with
        | none => none
        | some hs =>
            some (hs.map (fun mh =>
              { header := mh
                name := if mh.name_offset < h.string_table_size
                        then some (strAt t mh.name_offset) else none }))

/-- Re-open a produced archive file read-only and load its members
(`archive_open` + `archive_load_members`). -/
def decodeArchive (f : List Nat) : Option (StarHeader × List DecodedMember) :=
  match archive_open_read f with
  | none => none
  | some h => (archive_load_members f h).map (fun ms => (h, ms))

/-- One `archive_add_member_from_file` call: the member name, the bytes
of the input file, and its modification time. -/
structure ArchiveAddOp where
  name : List Nat
  data : List Nat
  mtime : Nat
deriving DecidableEq, Repr

/-- `archive_create` followed by a sequence of
`archive_add_member_from_file` calls. -/
def buildArchive (flags ctime : Nat) (ops : List ArchiveAddOp) : ArchiveFile :=
  ops.foldl (fun a op => archive_add_member a op.name op.data op.mtime)
    (archive_create flags ctime)

/-- The sum of the stored `size` fields of a list of members. -/
def sumSizes (ms : List ArchiveMember) : Nat :=
  (ms.map (fun m => m.header.size)).sum

/-- The canonical image of a member header after one serialize/parse
cycle: every field truncated to its on-disk width. -/
def canonStarMemberHeader (m : StarMemberHeader) : StarMemberHeader :=
  { name_offset := m.name_offset % 2 ^ 32
    size := m.size % 2 ^ 32
    compressed_size := m.compressed_size % 2 ^ 32
    data_offset := m.data_offset % 2 ^ 32
    checksum := m.checksum % 2 ^ 32
    timestamp := m.timestamp % 2 ^ 32
    flags := m.flags % 2 ^ 16
    compression := m.compression % 256 }

/-- The header of a finalized archive as re-read from disk: the
`finalizeHeader` fields with the patched checksum, each truncated to
its serialized width. -/
def finalizedHeader (a : ArchiveFile) : StarHeader :=
  canonStarHeader { finalizeHeader a with
    checksum := archive_write_header_checksum (finalizeHeader a) }

/-- The members produced by `archive_load_members` on a finalized
archive: the patched member headers, each with its name copied out of
the string table. -/
def decodedMembersOf (a : ArchiveFile) : List DecodedMember :=
  ((archive_finalize a).1.members.map (fun m => m.header)).map
    (fun mh =>
      { header := mh
        name := if mh.name_offset < a.stringTable.length
                then some (strAt a.stringTable mh.name_offset) else none })

/-! ## Concrete inputs used by the claims -/

/-- ASCII bytes of `"foo"`. -/
def fooName : List Nat := [102, 111, 111]

/-- A valid SMOF input file that defines the GLOBAL symbol `foo`
(type FUNC, binding GLOBAL) in its symbol table. -/
def inputDefiningFoo : SmofInputFile :=
  { header := smofOkHeader
    sections := []
    symbols := [{ name := fooName, value := 0, size := 0, section_index := 0,
                  type := 2, binding := 1 }] }

/-- A valid SMOF input file whose only section is a 4-byte `.text`
holding `{0x90, 0x90, 0x90, 0xC3}`. -/
def inputFlatC2 : SmofInputFile :=
  { header := smofOkHeader
    sections := [{ name := textName, data := [0x90, 0x90, 0x90, 0xC3] }]
    symbols := [] }

/-- Options `{output_type = BINARY_FLAT, base_address = 0x1000,
entry_point = 0x1000}` of the spec's flat-binary scenario. -/
def optionsFlatC2 : StldOptions :=
  { output_type := .binary_flat, entry_point := 0x1000, base_address := 0x1000 }

/-- The pool produced by `memory_pool_create 64`. -/
def pool64 : MemoryPool :=
  { size := 64, used := 0, peak_used := 0, allocations := 0,
    deallocations := 0, alignment := 8 }

/-- A two-member archive whose first member is one byte short of
4 GiB, so that the second member's `uint32_t` data-offset cursor
wraps during `archive_finalize`. -/
def archC7 : ArchiveFile :=
  buildArchive 0x10 0
    [{ name := [97], data := List.replicate (2 ^ 32 - 1) 7, mtime := 0 },
     { name := [98], data := [1, 2, 3], mtime := 0 }]

/-- An archive built by 65536 `archive_add_member_from_file` calls (one
more than `STAR_MAX_MEMBERS`), each adding the one-byte member `"m"`. -/
def archC3big : ArchiveFile :=
  (fun a => archive_add_member a [109] [1] 0)^[65536] (archive_create 0x10 0)

/-- A small one-member archive used to instantiate layout theorems. -/
def archW : ArchiveFile :=
  buildArchive 0x10 0 [{ name := [97], data := [5, 6], mtime := 0 }]

/-- Well-formedness of a string table: non-empty and NUL-terminated. -/
def TableWF (t : List Nat) : Prop := t ≠ [] ∧ t.getLast? = some 0

/-- The relation between an in-memory member (before `data_offset`
patching) and the `archive_add_member_from_file` call that created it,
relative to string table `t`. -/
def MemberMatches (t : List Nat) (m : ArchiveMember) (op : ArchiveAddOp) : Prop :=
  m.name = op.name ∧
  m.data = op.data ∧
  m.header.size = op.data.length % 2 ^ 32 ∧
  m.header.compressed_size = op.data.length % 2 ^ 32 ∧
  m.header.checksum = archive_calculate_checksum op.data ∧
  m.header.timestamp = op.mtime % 2 ^ 32 ∧
  m.header.flags = 0 ∧
  m.header.compression = 0 ∧
  m.header.name_offset < t.length ∧
  strAt t m.header.name_offset = op.name

/-! ## Validation characterizations

Each lemma lists, verbatim, the negations of the reject conditions of
the corresponding C validation function. -/

theorem smof_validate_header_iff (h : SmofHeader) :
    smof_validate_header h = true ↔
      (¬(h.magic ≠ SMOF_MAGIC) ∧
       ¬(h.version > SMOF_VERSION_CURRENT) ∧
       ¬(smofEffectiveLittle h.flags = true ∧ smofEffectiveBig h.flags = true) ∧
       ¬(¬(smofEffectiveLittle h.flags = true) ∧ ¬(smofEffectiveBig h.flags = true)) ∧
       ¬(h.section_count > 256) ∧
       ¬(h.symbol_count > 32767) ∧
       ¬(h.string_table_size > 1048576) ∧
       ¬(h.section_table_offset > 0 ∧ h.section_table_offset < smofHeaderSize) ∧
       ¬(h.string_table_offset > 0 ∧ h.string_table_offset < smofHeaderSize) ∧
       ¬(h.reloc_table_offset > 0 ∧ h.reloc_table_offset < smofHeaderSize) ∧
       ¬(h.section_count > 0 ∧
         (h.string_table_offset > 0 ∧
          h.string_table_offset > h.section_table_offset ∧
          h.string_table_offset < h.section_table_offset + h.section_count * smofSectionSize)) ∧
       ¬(h.reloc_count > 0 ∧
         (h.string_table_offset > 0 ∧
          h.string_table_offset > h.reloc_table_offset ∧
          h.string_table_offset < h.reloc_table_offset + h.reloc_count * smofRelocationSize))) := by
  rw [smof_validate_header]
  by_cases h1 : h.magic ≠ SMOF_MAGIC
  · rw [if_pos h1]; exact iff_of_false Bool.false_ne_true (fun hr => hr.1 h1)
  rw [if_neg h1]
  by_cases h2 : h.version > SMOF_VERSION_CURRENT
  · rw [if_pos h2]; exact iff_of_false Bool.false_ne_true (fun hr => hr.2.1 h2)
  rw [if_neg h2]
  simp only []
  by_cases h3 : smofEffectiveLittle h.flags = true ∧ smofEffectiveBig h.flags = true
  · rw [if_pos h3]; exact iff_of_false Bool.false_ne_true (fun hr => hr.2.2.1 h3)
  rw [if_neg h3]
  by_cases h4 : ¬(smofEffectiveLittle h.flags = true) ∧ ¬(smofEffectiveBig h.flags = true)
  · rw [if_pos h4]; exact iff_of_false Bool.false_ne_true (fun hr => hr.2.2.2.1 h4)
  rw [if_neg h4]
  by_cases h5 : h.section_count > 256
  · rw [if_pos h5]; exact iff_of_false Bool.false_ne_true (fun hr => hr.2.2.2.2.1 h5)
  rw [if_neg h5]
  by_cases h6 : h.symbol_count > 32767
  · rw [if_pos h6]; exact iff_of_false Bool.false_ne_true (fun hr => hr.2.2.2.2.2.1 h6)
  rw [if_neg h6]
  by_cases h7 : h.string_table_size > 1048576
  · rw [if_pos h7]; exact iff_of_false Bool.false_ne_true (fun hr => hr.2.2.2.2.2.2.1 h7)
  rw [if_neg h7]
  by_cases h8 : h.section_table_offset > 0 ∧ h.section_table_offset < smofHeaderSize
  · rw [if_pos h8]; exact iff_of_false Bool.false_ne_true (fun hr => hr.2.2.2.2.2.2.2.1 h8)
  rw [if_neg h8]
  by_cases h9 : h.string_table_offset > 0 ∧ h.string_table_offset < smofHeaderSize
  · rw [if_pos h9]; exact iff_of_false Bool.false_ne_true (fun hr => hr.2.2.2.2.2.2.2.2.1 h9)
  rw [if_neg h9]
  by_cases h10 : h.reloc_table_offset > 0 ∧ h.reloc_table_offset < smofHeaderSize
  · rw [if_pos h10]; exact iff_of_false Bool.false_ne_true (fun hr => hr.2.2.2.2.2.2.2.2.2.1 h10)
  rw [if_neg h10]
  by_cases h11 : h.section_count > 0 ∧
      (h.string_table_offset > 0 ∧
       h.string_table_offset > h.section_table_offset ∧
       h.string_table_offset < h.section_table_offset + h.section_count * smofSectionSize)
  · rw [if_pos h11]; exact iff_of_false Bool.false_ne_true (fun hr => hr.2.2.2.2.2.2.2.2.2.2.1 h11)
  rw [if_neg h11]
  by_cases h12 : h.reloc_count > 0 ∧
      (h.string_table_offset > 0 ∧
       h.string_table_offset > h.reloc_table_offset ∧
       h.string_table_offset < h.reloc_table_offset + h.reloc_count * smofRelocationSize)
  · rw [if_pos h12]; exact iff_of_false Bool.false_ne_true (fun hr => hr.2.2.2.2.2.2.2.2.2.2.2 h12)
  rw [if_neg h12]
  exact iff_of_true rfl ⟨h1, h2, h3, h4, h5, h6, h7, h8, h9, h10, h11, h12⟩

theorem archive_validate_header_iff (h : StarHeader) :
    archive_validate_header h = true ↔
      (¬(h.magic ≠ STAR_MAGIC) ∧
       ¬(h.version ≠ STAR_VERSION) ∧
       ¬(h.member_count > STAR_MAX_MEMBERS) ∧
       ¬(h.member_table_offset > 0 ∧ h.member_table_offset < starHeaderSize) ∧
       ¬(h.string_table_offset > 0 ∧ h.string_table_offset < starHeaderSize)) := by
  rw [archive_validate_header]
  by_cases h1 : h.magic ≠ STAR_MAGIC
  · rw [if_pos h1]; exact iff_of_false Bool.false_ne_true (fun hr => hr.1 h1)
  rw [if_neg h1]
  by_cases h2 : h.version ≠ STAR_VERSION
  · rw [if_pos h2]; exact iff_of_false Bool.false_ne_true (fun hr => hr.2.1 h2)
  rw [if_neg h2]
  by_cases h3 : h.member_count > STAR_MAX_MEMBERS
  · rw [if_pos h3]; exact iff_of_false Bool.false_ne_true (fun hr => hr.2.2.1 h3)
  rw [if_neg h3]
  by_cases h4 : h.member_table_offset > 0 ∧ h.member_table_offset < starHeaderSize
  · rw [if_pos h4]; exact iff_of_false Bool.false_ne_true (fun hr => hr.2.2.2.1 h4)
  rw [if_neg h4]
  by_cases h5 : h.string_table_offset > 0 ∧ h.string_table_offset < starHeaderSize
  · rw [if_pos h5]; exact iff_of_false Bool.false_ne_true (fun hr => hr.2.2.2.2 h5)
  rw [if_neg h5]
  exact iff_of_true rfl ⟨h1, h2, h3, h4, h5⟩

/-! ## Pool-allocator lemmas -/

theorem runPoolOp_invariant (p : MemoryPool) (op : PoolOp) (h : p.used ≤ p.size) :
    (runPoolOp p op).used ≤ (runPoolOp p op).size ∧ (runPoolOp p op).size = p.size := by
  cases op with
  | alloc s =>
      simp only [runPoolOp, memory_pool_alloc]
      split_ifs <;> simp_all <;> omega
  | calloc c s =>
      simp only [runPoolOp, memory_pool_calloc, memory_pool_alloc]
      split_ifs <;> simp_all <;> omega
  | free => exact ⟨h, rfl⟩
  | reset => exact ⟨Nat.zero_le _, rfl⟩

theorem runPoolOps_invariant (ops : List PoolOp) :
    ∀ p : MemoryPool, p.used ≤ p.size →
      (runPoolOps p ops).used ≤ (runPoolOps p ops).size ∧ (runPoolOps p ops).size = p.size := by
  induction ops with
  | nil => intro p h; exact ⟨h, rfl⟩
  | cons op rest ih =>
      intro p h
      have h1 := runPoolOp_invariant p op h
      have h2 := ih (runPoolOp p op) h1.1
      exact ⟨h2.1, h2.2.trans h1.2⟩

/-! ## Archive layout lemmas -/

theorem encodeStarHeader_length (h : StarHeader) :
    (encodeStarHeader h).length = 64 := by
  simp [encodeStarHeader, le16, le32]

theorem encodeStarMemberHeader_length (m : StarMemberHeader) :
    (encodeStarMemberHeader m).length = 128 := by
  simp [encodeStarMemberHeader, le16, le32]

theorem memberTable_length (ms : List ArchiveMember) :
    ((ms.map (fun m => encodeStarMemberHeader m.header)).flatten).length =
      128 * ms.length := by
  induction ms with
  | nil => rfl
  | cons m rest ih =>
      simp only [List.map_cons, List.flatten_cons, List.length_append, ih,
        encodeStarMemberHeader_length, List.length_cons]
      ring

theorem patchDataOffsets_length (off : Nat) (ms : List ArchiveMember) :
    (patchDataOffsets off ms).length = ms.length := by
  induction ms generalizing off with
  | nil => rfl
  | cons m rest ih => simp [patchDataOffsets, ih]

theorem finalize_members_length (a : ArchiveFile) :
    ((archive_finalize a).1.members).length = a.members.length := by
  simp [archive_finalize, patchDataOffsets_length]

theorem finalize_members_eq (a : ArchiveFile) :
    (archive_finalize a).1.members =
      patchDataOffsets (((finalizeHeader a).string_table_offset +
        (finalizeHeader a).string_table_size) % 2 ^ 32) a.members := rfl

theorem patchDataOffsets_get (ms : List ArchiveMember) :
    ∀ (off : Nat), off < 2 ^ 32 → ∀ (i : Nat) (hi : i < ms.length),
      (patchDataOffsets off ms).get
          ⟨i, by rw [patchDataOffsets_length]; exact hi⟩ =
        { ms.get ⟨i, hi⟩ with
            header := { (ms.get ⟨i, hi⟩).header with
              data_offset := (off + sumSizes (ms.take i)) % 2 ^ 32 } } := by
  induction ms with
  | nil => intro off hoff i hi; exact absurd hi (by simp)
  | cons m rest ih =>
      intro off hoff i hi
      cases i with
      | zero =>
          simp [patchDataOffsets, sumSizes]
          omega
      | succ j =>
          have hj : j < rest.length := by simpa using hi
          have step := ih ((off + m.header.size) % 2 ^ 32)
            (Nat.mod_lt _ (by norm_num)) j hj
          simp only [patchDataOffsets, List.get_cons_succ]
          rw [step]
          have harith :
              ((off + m.header.size) % 2 ^ 32 + sumSizes (rest.take j)) % 2 ^ 32 =
              (off + sumSizes ((m :: rest).take (j + 1))) % 2 ^ 32 := by
            simp only [List.take_succ_cons, sumSizes, List.map_cons, List.sum_cons]
            omega
          rw [harith]

theorem patchDataOffsets_payloads (off : Nat) (ms : List ArchiveMember) :
    (patchDataOffsets off ms).map (fun m => m.data.take m.header.size) =
      ms.map (fun m => m.data.take m.header.size) := by
  induction ms generalizing off with
  | nil => rfl
  | cons m rest ih => simp [patchDataOffsets, ih]

theorem drop_append_exact (l₁ l₂ : List Nat) (n : Nat) (h : l₁.length = n) :
    (l₁ ++ l₂).drop n = l₂ := by
  subst h; simp

theorem take_append_exact (l₁ l₂ : List Nat) (n : Nat) (h : l₁.length = n) :
    (l₁ ++ l₂).take n = l₁ := by
  subst h; simp

/-- The byte layout produced by `archive_finalize`, as one equation:
64-byte header, then the 128-byte member entries in order, then the
string table, then the payloads in member order. -/
theorem archive_finalize_file (a : ArchiveFile) :
    (archive_finalize a).2 =
      encodeStarHeader
          { finalizeHeader a with
              checksum := archive_write_header_checksum (finalizeHeader a) } ++
        (((archive_finalize a).1.members).map
          (fun m => encodeStarMemberHeader m.header)).flatten ++
        a.stringTable ++
        (a.members.map (fun m => m.data.take m.header.size)).flatten := by
  simp only [archive_finalize]
  rw [patchDataOffsets_payloads]

/-! ## String-table lemmas -/

theorem takeWhile_append_all {p : Nat → Bool} (A B : List Nat)
    (h : ∀ a ∈ A, p a) : (A ++ B).takeWhile p = A ++ B.takeWhile p := by
  induction A with
  | nil => rfl
  | cons a A ih =>
      rw [List.cons_append, List.takeWhile_cons,
          if_pos (h a (List.mem_cons_self a A)),
          ih (fun x hx => h x (List.mem_cons_of_mem a hx)), List.cons_append]

theorem takeWhile_append_stop {p : Nat → Bool} (A B : List Nat)
    (h : ∃ a ∈ A, ¬ p a) : (A ++ B).takeWhile p = A.takeWhile p := by
  induction A with
  | nil => obtain ⟨a, ha, -⟩ := h; exact absurd ha (by simp)
  | cons a A ih =>
      by_cases hpa : p a
      · have hA : ∃ x ∈ A, ¬ p x := by
          obtain ⟨x, hx, hpx⟩ := h
          rcases List.mem_cons.mp hx with rfl | hx
          · exact absurd hpa hpx
          · exact ⟨x, hx, hpx⟩
        rw [List.cons_append, List.takeWhile_cons, List.takeWhile_cons]
        simp [hpa, ih hA]
      · rw [List.cons_append, List.takeWhile_cons, List.takeWhile_cons]
        simp [hpa]

theorem zero_mem_drop_of_getLast (t : List Nat) (off : Nat)
    (hlast : t.getLast? = some 0) (hoff : off < t.length) : 0 ∈ t.drop off := by
  have hne : t.drop off ≠ [] := by
    intro hnil
    have := List.drop_eq_nil_iff.mp hnil
    omega
  have hsame : (t.drop off).getLast? = t.getLast? := by
    conv_rhs => rw [← List.take_append_drop off t]
    rw [List.getLast?_append_of_ne_nil _ hne]
  have hlast' := List.getLast?_eq_getLast_of_ne_nil hne
  rw [hsame, hlast] at hlast'
  have hz : (t.drop off).getLast hne = 0 := by
    exact (Option.some.inj hlast'.symm)
  rw [← hz]
  exact List.getLast_mem hne

theorem strAt_append (t x : List Nat) (off : Nat)
    (hlast : t.getLast? = some 0) (hoff : off < t.length) :
    strAt (t ++ x) off = strAt t off := by
  unfold strAt
  rw [List.drop_append_eq_append_drop, Nat.sub_eq_zero_of_le (le_of_lt hoff),
      List.drop_zero]
  exact takeWhile_append_stop _ _
    ⟨0, zero_mem_drop_of_getLast t off hlast hoff, by simp⟩

theorem findStringFrom_some (t s : List Nat) (i off : Nat)
    (h : findStringFrom t s i = some off) : off < t.length ∧ strAt t off = s := by
  rw [findStringFrom] at h
  split_ifs at h with h1 h2
  · exact (Option.some.inj h) ▸ ⟨h1, h2⟩
  · exact findStringFrom_some t s (i + (strAt t i).length + 1) off h
termination_by t.length - i
decreasing_by simp_wf; omega

theorem archive_add_string_spec (a : ArchiveFile) (s : List Nat)
    (hwf : TableWF a.stringTable) (hs : 0 ∉ s) :
    TableWF (archive_add_string a s).2.stringTable ∧
    (∃ x, (archive_add_string a s).2.stringTable = a.stringTable ++ x) ∧
    (archive_add_string a s).1 < (archive_add_string a s).2.stringTable.length ∧
    strAt (archive_add_string a s).2.stringTable (archive_add_string a s).1 = s ∧
    (archive_add_string a s).2.members = a.members ∧
    (archive_add_string a s).2.flags = a.flags ∧
    (archive_add_string a s).2.creation_time = a.creation_time ∧
    (archive_add_string a s).2.stringTable.length ≥ a.stringTable.length := by
  unfold archive_add_string
  cases hf : findStringFrom a.stringTable s 0 with
  | some off =>
      obtain ⟨hlt, hat⟩ := findStringFrom_some _ _ _ _ hf
      exact ⟨hwf, ⟨[], by simp⟩, hlt, hat, rfl, rfl, rfl, le_refl _⟩
  | none =>
      refine ⟨⟨by simp, ?_⟩, ⟨s ++ [0], by simp⟩, by simp, ?_, rfl, rfl, rfl, by simp⟩
      · rw [List.append_assoc, List.getLast?_append_of_ne_nil _ (by simp),
            List.getLast?_append_of_ne_nil _ (by simp)]
        rfl
      · show strAt (a.stringTable ++ s ++ [0]) a.stringTable.length = s
        rw [List.append_assoc]
        unfold strAt
        rw [drop_append_exact _ _ _ rfl]
        rw [takeWhile_append_all _ _ (fun x hx => by
          simp only [ne_eq, decide_eq_true_eq]
          intro hx0
          exact hs (hx0 ▸ hx))]
        simp

theorem add_member_stringTable (a : ArchiveFile) (n d : List Nat) (t : Nat) :
    (archive_add_member a n d t).stringTable =
      (archive_add_string a n).2.stringTable := rfl

theorem add_member_flags (a : ArchiveFile) (n d : List Nat) (t : Nat) :
    (archive_add_member a n d t).flags = (archive_add_string a n).2.flags := rfl

theorem add_member_creation_time (a : ArchiveFile) (n d : List Nat) (t : Nat) :
    (archive_add_member a n d t).creation_time =
      (archive_add_string a n).2.creation_time := rfl

theorem add_member_members (a : ArchiveFile) (n d : List Nat) (t : Nat) :
    (archive_add_member a n d t).members =
      (archive_add_string a n).2.members ++
        [{ header :=
             { name_offset := (archive_add_string a n).1
               size := d.length % 2 ^ 32
               compressed_size := d.length % 2 ^ 32
               data_offset := 0
               checksum := archive_calculate_checksum d
               timestamp := t % 2 ^ 32
               flags := 0
               compression := 0 }
           name := n
           data := d }] := rfl

theorem buildArchive_invariant (flags ctime : Nat) (ops : List ArchiveAddOp) :
    (∀ op ∈ ops, 0 ∉ op.name) →
    TableWF (buildArchive flags ctime ops).stringTable ∧
    (buildArchive flags ctime ops).flags = flags ∧
    (buildArchive flags ctime ops).creation_time = ctime ∧
    List.Forall₂ (MemberMatches (buildArchive flags ctime ops).stringTable)
      (buildArchive flags ctime ops).members ops := by
  induction ops using List.reverseRecOn with
  | nil =>
      intro _
      exact ⟨⟨by simp [buildArchive, archive_create], rfl⟩, rfl, rfl, List.Forall₂.nil⟩
  | append_singleton l op ih =>
      intro hnames
      obtain ⟨hWF, hflags, hct, hF2⟩ := ih (fun x hx => hnames x (by simp [hx]))
      have hstep : buildArchive flags ctime (l ++ [op]) =
          archive_add_member (buildArchive flags ctime l) op.name op.data op.mtime := by
        simp [buildArchive, List.foldl_append]
      rw [hstep]
      obtain ⟨hWF', ⟨x, hx⟩, hofflt, hoffat, hmem, hflg, hctm, hlen⟩ :=
        archive_add_string_spec (buildArchive flags ctime l) op.name hWF
          (hnames op (by simp))
      refine ⟨?_, ?_, ?_, ?_⟩
      · rw [add_member_stringTable]; exact hWF'
      · rw [add_member_flags]; exact hflg.trans hflags
      · rw [add_member_creation_time]; exact hctm.trans hct
      rw [add_member_members, add_member_stringTable, hmem]
      refine List.rel_append ?_ ?_
      · refine hF2.imp ?_
        intro m o hmo
        obtain ⟨h1, h2, h3, h4, h5, h6, h7, h8, h9, h10⟩ := hmo
        refine ⟨h1, h2, h3, h4, h5, h6, h7, h8, ?_, ?_⟩
        · rw [hx]
          simp only [List.length_append]
          omega
        · rw [hx, strAt_append _ _ _ hWF.2 h9]
          exact h10
      · refine List.forall₂_cons.mpr ⟨?_, List.Forall₂.nil⟩
        exact ⟨rfl, rfl, rfl, rfl, rfl, rfl, rfl, rfl, hofflt, hoffat⟩

/-! ## Serialization round-trip lemmas -/

theorem parseStarHeader_encode (h : StarHeader) (r : List Nat) :
    parseStarHeader (encodeStarHeader h ++ r) = some (canonStarHeader h) := by
  simp only [encodeStarHeader, le32, le16, List.cons_append, List.nil_append,
             List.append_assoc]
  simp only [parseStarHeader]
  rw [if_neg (by simp)]
  simp only [canonStarHeader, rd32_le32, rd16_le16]

theorem parseMemberHeader_encode (m : StarMemberHeader) (r : List Nat) :
    parseMemberHeader (encodeStarMemberHeader m ++ r) =
      some (canonStarMemberHeader m, r) := by
  simp only [encodeStarMemberHeader, le32, le16, List.cons_append, List.nil_append,
             List.append_assoc]
  simp only [parseMemberHeader]
  rw [if_neg (by simp)]
  rw [drop_append_exact _ _ _ (by simp)]
  simp only [canonStarMemberHeader, rd32_le32, rd16_le16]

theorem parseMembers_encode (hs : List StarMemberHeader) (r : List Nat) :
    parseMembers hs.length ((hs.map encodeStarMemberHeader).flatten ++ r) =
      some (hs.map canonStarMemberHeader) := by
  induction hs generalizing r with
  | nil => rfl
  | cons m rest ih =>
      simp only [List.map_cons, List.flatten_cons, List.length_cons,
                 List.append_assoc]
      simp only [parseMembers]
      rw [parseMemberHeader_encode]
      simp only []
      rw [ih]
      rfl

theorem add_string_members (a : ArchiveFile) (s : List Nat) :
    (archive_add_string a s).2.members = a.members := by
  unfold archive_add_string
  cases findStringFrom a.stringTable s 0 <;> rfl

theorem iterate_add_count (k : Nat) (st : ArchiveFile) :
    (((fun a => archive_add_member a [109] [1] 0)^[k]) st).members.length =
      k + st.members.length := by
  induction k generalizing st with
  | zero => simp
  | succ j ih =>
      rw [Function.iterate_succ_apply, ih, add_member_members]
      simp only [List.length_append, add_string_members]
      simp
      omega

/-! ## CRC-32 range lemmas -/

theorem xor_lt_32 {a b : Nat} (ha : a < 2 ^ 32) (hb : b < 2 ^ 32) :
    a ^^^ b < 2 ^ 32 :=
  Nat.bitwise_lt ha hb

theorem crc32_step_lt {c : Nat} (hc : c < 2 ^ 32) : crc32_step c < 2 ^ 32 := by
  unfold crc32_step
  split_ifs
  · exact xor_lt_32 (by norm_num) (by omega)
  · omega

theorem crc32_table_lt (n : Nat) (hn : n < 2 ^ 32) : crc32_table n < 2 ^ 32 := by
  unfold crc32_table
  have hiter : ∀ (k c : Nat), c < 2 ^ 32 → crc32_step^[k] c < 2 ^ 32 := by
    intro k
    induction k with
    | zero => intro c hc; simpa using hc
    | succ j ih =>
        intro c hc
        rw [Function.iterate_succ_apply]
        exact ih _ (crc32_step_lt hc)
  exact hiter 8 n hn

theorem crcUpdate_lt {crc : Nat} (b : Nat) (h : crc < 2 ^ 32) :
    crcUpdate crc b < 2 ^ 32 := by
  unfold crcUpdate
  have h256 : (crc ^^^ b) % 256 < 256 := Nat.mod_lt _ (by norm_num)
  exact xor_lt_32 (crc32_table_lt _ (by omega)) (by omega)

theorem archive_checksum_lt (data : List Nat) :
    archive_calculate_checksum data < 2 ^ 32 := by
  unfold archive_calculate_checksum
  have hfold : ∀ (l : List Nat) (c : Nat), c < 2 ^ 32 →
      l.foldl crcUpdate c < 2 ^ 32 := by
    intro l
    induction l with
    | nil => intro c hc; simpa using hc
    | cons x xs ih =>
        intro c hc
        rw [List.foldl_cons]
        exact ih _ (crcUpdate_lt x hc)
  exact xor_lt_32 (hfold data _ (by norm_num)) (by norm_num)

/-! ## Claim C9 -/

/-- C9: `smof_validate_header` rejects every header whose
`section_count` exceeds 256, whose `symbol_count` exceeds 32767, or
whose `string_table_size` exceeds 1048576, whatever the remaining
fields are. -/
theorem claim_C9_smof_limits (h : SmofHeader)
    (hc : 256 < h.section_count ∨ 32767 < h.symbol_count ∨
          1048576 < h.string_table_size) :
    smof_validate_header h = false := by
  cases hb : smof_validate_header h
  · rfl
  · obtain ⟨-, -, -, -, h5, h6, h7, -⟩ := (smof_validate_header_iff h).1 hb
    omega

theorem claim_C9_smof_limits_witness :
    (256 < 257 ∨ 32767 < (0 : Nat) ∨ 1048576 < (0 : Nat)) ∧
    smof_validate_header { smofOkHeader with section_count := 257 } = false :=
  ⟨by decide, claim_C9_smof_limits { smofOkHeader with section_count := 257 } (by decide)⟩

/-! ## Claim C5 -/

/-- C5 (code bug): `smof_validate_header` accepts magic `0x534D4F46`
(the repository's `SMOF_MAGIC`) and rejects `0x464F4D53`, the reverse
of the claim; `0x464F4D53` is what on-disk bytes `53 4D 4F 46`
(`"SMOF"`) compare equal to on a little-endian reader, so the constant
contradicts its own "`'SMOF'` in little-endian" comment. -/
theorem claim_C5_magic_divergence :
    smof_validate_header { smofOkHeader with magic := SMOF_MAGIC_ALT } = false ∧
    smof_validate_header smofOkHeader = true ∧
    smofOkHeader.magic = 0x534D4F46 ∧ SMOF_MAGIC_ALT = 0x464F4D53 := by decide

/-! ## Claim C6 -/

/-- C6 counterexample: a STAR header with no endianness flag at all
(flags = 0) passes `archive_validate_header`, though the claim says a
header with neither flag set is rejected. -/
theorem claim_C6_counterexample :
    archive_validate_header { starOkHeader with flags := 0 } = true ∧
    ({ starOkHeader with flags := 0 } : StarHeader).flags &&& STAR_FLAG_LITTLE_ENDIAN = 0 ∧
    ({ starOkHeader with flags := 0 } : StarHeader).flags &&& STAR_FLAG_BIG_ENDIAN = 0 := by
  decide

/-- C6 amended: `smof_validate_header` succeeds only when exactly one
of the effective endianness indicators is set (the primary bits
`0x0100`/`0x0200`, falling back to the STAS bits `0x0010`/`0x0020`
when neither primary bit is set); `archive_validate_header` does not
examine the flags field at all. -/
theorem claim_C6_endianness :
    (∀ h : SmofHeader, smof_validate_header h = true →
       (smofEffectiveLittle h.flags = true ∧ smofEffectiveBig h.flags = false) ∨
       (smofEffectiveLittle h.flags = false ∧ smofEffectiveBig h.flags = true)) ∧
    (∀ (h : StarHeader) (f : Nat),
       archive_validate_header { h with flags := f } = archive_validate_header h) := by
  constructor
  · intro h hv
    obtain ⟨-, -, h3, h4, -⟩ := (smof_validate_header_iff h).1 hv
    cases hl : smofEffectiveLittle h.flags <;> cases hb : smofEffectiveBig h.flags <;>
      simp_all
  · intro h f
    simp only [archive_validate_header]

theorem claim_C6_endianness_witness :
    ((smofEffectiveLittle smofOkHeader.flags = true ∧
      smofEffectiveBig smofOkHeader.flags = false) ∨
     (smofEffectiveLittle smofOkHeader.flags = false ∧
      smofEffectiveBig smofOkHeader.flags = true)) ∧
    archive_validate_header { starOkHeader with flags := 3 } =
      archive_validate_header starOkHeader :=
  ⟨claim_C6_endianness.1 smofOkHeader (by decide), claim_C6_endianness.2 starOkHeader 3⟩

/-! ## Claim C8 -/

/-- C8 counterexample: a STAR header with version 0 (≤ STAR_VERSION)
and all other fields valid is rejected by `archive_validate_header`,
though the claim says versions ≤ STAR_VERSION are accepted. -/
theorem claim_C8_counterexample :
    (0 : Nat) ≤ STAR_VERSION ∧
    archive_validate_header { starOkHeader with version := 0 } = false := by decide

/-- C8 amended: `smof_validate_header` accepts exactly the versions
≤ `SMOF_VERSION_CURRENT` (the version check is monotone and
independent of the other checks), while `archive_validate_header`
accepts only version = `STAR_VERSION` exactly. -/
theorem claim_C8_version_checks :
    (∀ (h : SmofHeader) (v : Nat), smof_validate_header h = true →
       v ≤ SMOF_VERSION_CURRENT → smof_validate_header { h with version := v } = true) ∧
    (∀ h : StarHeader, archive_validate_header h = true → h.version = STAR_VERSION) ∧
    (∀ h : SmofHeader, smof_validate_header h = true → h.version ≤ SMOF_VERSION_CURRENT) := by
  refine ⟨?_, ?_, ?_⟩
  · intro h v hv hle
    rw [smof_validate_header_iff] at hv ⊢
    obtain ⟨h1, h2, h3, h4, h5, h6, h7, h8, h9, h10, h11, h12⟩ := hv
    exact ⟨h1, by simpa using hle, h3, h4, h5, h6, h7, h8, h9, h10, h11, h12⟩
  · intro h hv
    obtain ⟨-, h2, -⟩ := (archive_validate_header_iff h).1 hv
    omega
  · intro h hv
    obtain ⟨-, h2, -⟩ := (smof_validate_header_iff h).1 hv
    omega

theorem claim_C8_version_checks_witness :
    smof_validate_header { smofOkHeader with version := 0 } = true ∧
    starOkHeader.version = STAR_VERSION ∧
    smofOkHeader.version ≤ SMOF_VERSION_CURRENT :=
  ⟨claim_C8_version_checks.1 smofOkHeader 0 (by decide) (by decide),
   claim_C8_version_checks.2.1 starOkHeader (by decide),
   claim_C8_version_checks.2.2 smofOkHeader (by decide)⟩

/-! ## Claim C1 -/

/-- C1 (code bug): linking two valid inputs that each define the
GLOBAL symbol `foo` returns ERROR_SUCCESS and writes an output file;
the stubbed loader never reads the inputs' symbol tables, so no
DUPLICATE_SYMBOL error can ever be produced. -/
theorem claim_C1_duplicate_global_not_detected :
    (stld_link stld_get_default_options [inputDefiningFoo, inputDefiningFoo]).1 =
      ERROR_SUCCESS ∧
    (stld_link stld_get_default_options [inputDefiningFoo, inputDefiningFoo]).2.isSome =
      true ∧
    ERROR_SUCCESS ≠ ERROR_DUPLICATE_SYMBOL := by decide

/-! ## Claim C2 -/

/-- C2 (code bug): on the spec's flat-binary scenario (one input whose
only section is `{0x90,0x90,0x90,0xC3}`), `stld_link` writes the fixed
placeholder bytes `{0x90,0x90,0x90,0x90}`, not the section payload. -/
theorem claim_C2_binary_flat_output :
    stld_link optionsFlatC2 [inputFlatC2] =
      (ERROR_SUCCESS, some [0x90, 0x90, 0x90, 0x90]) ∧
    ([0x90, 0x90, 0x90, 0x90] : List Nat) ≠ [0x90, 0x90, 0x90, 0xC3] := by decide

/-! ## Claim C10 -/

/-- C10 counterexample: on a fresh 64-byte pool,
`memory_pool_alloc(pool, SIZE_MAX)` succeeds and advances `used` by 0,
because `(size + 7) & ~7` wraps in `size_t`; the claim's mathematical
`used + roundup8(s) ≤ N` condition is violated. -/
theorem claim_C10_counterexample :
    memory_pool_create 64 = some pool64 ∧
    (memory_pool_alloc pool64 (2 ^ 64 - 1)).2 = true ∧
    pool64.size < pool64.used + (2 ^ 64 - 1 + 7) / 8 * 8 ∧
    (memory_pool_alloc pool64 (2 ^ 64 - 1)).1.used = pool64.used := by decide

/-- C10 amended: with the `size_t` (mod `2^64`) computation
`align(s) = ((s + alignment - 1) mod 2^64) & ~(alignment - 1)` — which
agrees with the mathematical round-up to a multiple of 8 whenever
`s + 7` does not overflow — `used ≤ N` holds after every operation
sequence, `memory_pool_alloc` succeeds exactly when `s > 0` and
`(used + align(s)) mod 2^64 ≤ N`, advancing `used` to that value, and
`memory_pool_reset` restores `used = 0`. -/
theorem claim_C10_memory_pool :
    (∀ (N : Nat) (pool : MemoryPool), memory_pool_create N = some pool →
       ∀ ops : List PoolOp, (runPoolOps pool ops).used ≤ N) ∧
    (∀ (pool : MemoryPool) (s : Nat),
       ((memory_pool_alloc pool s).2 = true ↔
         s ≠ 0 ∧ (pool.used + memory_align_size s pool.alignment) % SIZE_T_MOD ≤ pool.size) ∧
       (memory_pool_alloc pool s).1.used =
         (if (memory_pool_alloc pool s).2 = true
          then (pool.used + memory_align_size s pool.alignment) % SIZE_T_MOD
          else pool.used)) ∧
    (∀ s : Nat, s + 7 < SIZE_T_MOD →
       memory_align_size s MEMORY_POOL_ALIGN = (s + 7) / 8 * 8) ∧
    (∀ pool : MemoryPool, (memory_pool_reset pool).used = 0) := by
  refine ⟨?_, ?_, ?_, ?_⟩
  · intro N pool hcreate ops
    have hpool : pool.used ≤ pool.size ∧ pool.size = N := by
      simp only [memory_pool_create] at hcreate
      split_ifs at hcreate
      all_goals try exact Option.noConfusion hcreate
      all_goals injection hcreate with hp
      all_goals subst hp
      all_goals exact ⟨Nat.zero_le _, rfl⟩
    have h := runPoolOps_invariant ops pool hpool.1
    omega
  · intro pool s
    by_cases hs : s = 0
    · simp [memory_pool_alloc, hs]
    · by_cases hfit :
          (pool.used + memory_align_size s pool.alignment) % SIZE_T_MOD > pool.size
      · simp only [memory_pool_alloc, if_neg hs, if_pos hfit]
        exact ⟨⟨fun hfalse => absurd hfalse (by simp),
                fun hcl => absurd hcl.2 (by omega)⟩, by simp⟩
      · simp only [memory_pool_alloc, if_neg hs, if_neg hfit]
        exact ⟨⟨fun _ => ⟨hs, by omega⟩, fun _ => by simp⟩, by simp⟩
  · intro s hsmall
    simp only [memory_align_size, MEMORY_POOL_ALIGN, SIZE_T_MOD] at *
    rw [if_neg (by omega)]
    have : (s + 8 - 1) % 2 ^ 64 = s + 7 := Nat.mod_eq_of_lt (by omega)
    omega
  · intro pool
    rfl

theorem canon_member_id (mh : StarMemberHeader)
    (h1 : mh.name_offset < 2 ^ 32) (h2 : mh.size < 2 ^ 32)
    (h3 : mh.compressed_size < 2 ^ 32) (h4 : mh.data_offset < 2 ^ 32)
    (h5 : mh.checksum < 2 ^ 32) (h6 : mh.timestamp < 2 ^ 32)
    (h7 : mh.flags < 2 ^ 16) (h8 : mh.compression < 256) :
    canonStarMemberHeader mh = mh := by
  cases mh
  simp only [canonStarMemberHeader, StarMemberHeader.mk.injEq] at *
  omega

theorem payloads_eq (t : List Nat) (ms : List ArchiveMember)
    (ops : List ArchiveAddOp) (h : List.Forall₂ (MemberMatches t) ms ops) :
    (∀ op ∈ ops, op.data.length < 2 ^ 32) →
    ms.map (fun m => m.data.take m.header.size) = ops.map (fun op => op.data) := by
  induction h with
  | nil => intro _; rfl
  | @cons m op ms' ops' hmo htail ih =>
      intro hdata
      obtain ⟨-, h2, h3, -⟩ := hmo
      simp only [List.map_cons]
      rw [ih (fun x hx => hdata x (by simp [hx]))]
      rw [h2, h3, Nat.mod_eq_of_lt (hdata op (by simp))]
      rw [List.take_length]

theorem sumSizes_eq (t : List Nat) (ms : List ArchiveMember)
    (ops : List ArchiveAddOp) (h : List.Forall₂ (MemberMatches t) ms ops) :
    (∀ op ∈ ops, op.data.length < 2 ^ 32) →
    sumSizes ms = (ops.map (fun op => op.data.length)).sum := by
  induction h with
  | nil => intro _; rfl
  | @cons m op ms' ops' hmo htail ih =>
      intro hdata
      obtain ⟨-, -, h3, -⟩ := hmo
      simp only [sumSizes, List.map_cons, List.sum_cons] at *
      rw [ih (fun x hx => hdata x (by simp [hx]))]
      rw [h3, Nat.mod_eq_of_lt (hdata op (by simp))]

theorem drop_append_plus (X P : List Nat) (L k : Nat) (h : X.length = L) :
    (X ++ P).drop (L + k) = P.drop k := by
  subst h
  rw [List.drop_append_eq_append_drop]
  rw [List.drop_eq_nil_of_le (by omega), Nat.add_sub_cancel_left, List.nil_append]

theorem flatten_drop_take (L : List (List Nat)) :
    ∀ (i : Nat) (hi : i < L.length),
      ((L.flatten.drop (((L.take i).map List.length).sum)).take
          (L.get ⟨i, hi⟩).length) = L.get ⟨i, hi⟩ := by
  induction L with
  | nil => intro i hi; exact absurd hi (by simp)
  | cons x xs ih =>
      intro i hi
      cases i with
      | zero =>
          simp only [List.take_zero, List.map_nil, List.sum_nil, List.flatten_cons,
            List.drop_zero, List.get]
          exact take_append_exact _ _ _ rfl
      | succ j =>
          have hj : j < xs.length := by simpa using hi
          simp only [List.take_succ_cons, List.map_cons, List.sum_cons,
            List.flatten_cons, List.get_cons_succ]
          rw [drop_append_plus _ _ _ _ rfl]
          exact ih j hj

theorem canonFinalizeHeader_fields (a : ArchiveFile) :
    (canonStarHeader { finalizeHeader a with
        checksum := archive_write_header_checksum (finalizeHeader a) }).magic =
      STAR_MAGIC ∧
    (canonStarHeader { finalizeHeader a with
        checksum := archive_write_header_checksum (finalizeHeader a) }).version =
      STAR_VERSION ∧
    (canonStarHeader { finalizeHeader a with
        checksum := archive_write_header_checksum (finalizeHeader a) }).member_count =
      a.members.length % 2 ^ 32 ∧
    (canonStarHeader { finalizeHeader a with
        checksum := archive_write_header_checksum (finalizeHeader a)
      }).member_table_offset = 64 ∧
    (canonStarHeader { finalizeHeader a with
        checksum := archive_write_header_checksum (finalizeHeader a)
      }).string_table_offset = (64 + 128 * a.members.length) % 2 ^ 32 ∧
    (canonStarHeader { finalizeHeader a with
        checksum := archive_write_header_checksum (finalizeHeader a)
      }).string_table_size = a.stringTable.length % 2 ^ 32 := by
  refine ⟨?_, ?_, ?_, ?_, ?_, ?_⟩ <;>
    simp [canonStarHeader, finalizeHeader, STAR_MAGIC, STAR_VERSION,
          starHeaderSize, starMemberHeaderSize] <;> omega

theorem finalize_canon_id (a : ArchiveFile) (ops : List ArchiveAddOp)
    (hF2 : List.Forall₂ (MemberMatches a.stringTable) a.members ops)
    (hTL32 : a.stringTable.length < 2 ^ 32) :
    ((archive_finalize a).1.members.map (fun m => m.header)).map
        canonStarMemberHeader =
      (archive_finalize a).1.members.map (fun m => m.header) := by
  have hceach : ∀ mh ∈ (archive_finalize a).1.members.map (fun m => m.header),
      canonStarMemberHeader mh = mh := by
    intro mh hmh
    obtain ⟨m, hm, rfl⟩ := List.mem_map.mp hmh
    have hmem : (archive_finalize a).1.members =
        patchDataOffsets
          (((finalizeHeader a).string_table_offset +
            (finalizeHeader a).string_table_size) % 2 ^ 32) a.members := rfl
    rw [hmem] at hm
    obtain ⟨⟨i, hlt⟩, rfl⟩ := List.mem_iff_get.mp hm
    have hi : i < a.members.length := by
      rw [patchDataOffsets_length] at hlt
      exact hlt
    have hget := patchDataOffsets_get a.members
      (((finalizeHeader a).string_table_offset +
        (finalizeHeader a).string_table_size) % 2 ^ 32)
      (Nat.mod_lt _ (by norm_num)) i hi
    have hops : i < ops.length := by rw [← hF2.length_eq]; exact hi
    have hR := (List.forall₂_iff_get.mp hF2).2 i hi hops
    obtain ⟨-, -, h3, h4, h5, h6, h7, h8, h9, -⟩ := hR
    rw [show (⟨i, hlt⟩ : Fin (patchDataOffsets _ a.members).length) =
          ⟨i, by rw [patchDataOffsets_length]; exact hi⟩ from rfl, hget]
    apply canon_member_id
    · exact lt_trans h9 hTL32
    · rw [h3]; exact Nat.mod_lt _ (by norm_num)
    · rw [h4]; exact Nat.mod_lt _ (by norm_num)
    · exact Nat.mod_lt _ (by norm_num)
    · rw [h5]; exact archive_checksum_lt _
    · rw [h6]; exact Nat.mod_lt _ (by norm_num)
    · rw [h7]; norm_num
    · rw [h8]; norm_num
  calc ((archive_finalize a).1.members.map (fun m => m.header)).map
          canonStarMemberHeader
      = ((archive_finalize a).1.members.map (fun m => m.header)).map id :=
        List.map_congr_left hceach
    _ = (archive_finalize a).1.members.map (fun m => m.header) := List.map_id _

theorem archive_open_read_finalize (a : ArchiveFile)
    (hval : archive_validate_header (canonStarHeader { finalizeHeader a with
        checksum := archive_write_header_checksum (finalizeHeader a) }) = true) :
    archive_open_read (archive_finalize a).2 =
      some (canonStarHeader { finalizeHeader a with
        checksum := archive_write_header_checksum (finalizeHeader a) }) := by
  rw [archive_finalize_file a, List.append_assoc, List.append_assoc]
  unfold archive_open_read
  rw [parseStarHeader_encode]
  show (if archive_validate_header _ then _ else none) = _
  rw [hval]
  simp

theorem archive_finalize_file_length (a : ArchiveFile) :
    (archive_finalize a).2.length =
      64 + 128 * a.members.length + a.stringTable.length +
        ((a.members.map (fun m => m.data.take m.header.size)).flatten).length := by
  rw [archive_finalize_file]
  simp only [List.length_append, encodeStarHeader_length, memberTable_length,
             finalize_members_length]

theorem archive_load_members_finalize (a : ArchiveFile) (ops : List ArchiveAddOp)
    (hF2 : List.Forall₂ (MemberMatches a.stringTable) a.members ops)
    (hTL1 : 1 ≤ a.stringTable.length)
    (hTL32 : a.stringTable.length < 2 ^ 32)
    (hn32 : a.members.length ≤ 65535) :
    archive_load_members (archive_finalize a).2
        (canonStarHeader { finalizeHeader a with
          checksum := archive_write_header_checksum (finalizeHeader a) }) =
      some (((archive_finalize a).1.members.map (fun m => m.header)).map
        (fun mh =>
          { header := mh
            name := if mh.name_offset < a.stringTable.length
                    then some (strAt a.stringTable mh.name_offset) else none })) := by
  obtain ⟨-, -, hcc, hcmto, hcsto, hcsts⟩ := canonFinalizeHeader_fields a
  have hcc' : (canonStarHeader { finalizeHeader a with
      checksum := archive_write_header_checksum (finalizeHeader a) }).member_count =
      a.members.length := by rw [hcc]; omega
  have hcsto' : (canonStarHeader { finalizeHeader a with
      checksum := archive_write_header_checksum (finalizeHeader a)
    }).string_table_offset = 64 + 128 * a.members.length := by rw [hcsto]; omega
  have hcsts' : (canonStarHeader { finalizeHeader a with
      checksum := archive_write_header_checksum (finalizeHeader a)
    }).string_table_size = a.stringTable.length := by rw [hcsts]; omega
  by_cases hn0 : a.members.length = 0
  · have ha0 : a.members = [] := List.length_eq_zero.mp hn0
    unfold archive_load_members
    rw [if_pos (by rw [hcc']; exact hn0)]
    rw [show (archive_finalize a).1.members =
          patchDataOffsets
            (((finalizeHeader a).string_table_offset +
              (finalizeHeader a).string_table_size) % 2 ^ 32) a.members from rfl,
        ha0]
    rfl
  · unfold archive_load_members
    rw [if_neg (by rw [hcc']; exact hn0)]
    rw [if_pos (show (canonStarHeader { finalizeHeader a with
          checksum := archive_write_header_checksum (finalizeHeader a)
        }).string_table_size > 0 by rw [hcsts']; omega)]
    rw [if_pos (show (canonStarHeader { finalizeHeader a with
          checksum := archive_write_header_checksum (finalizeHeader a)
        }).string_table_offset + (canonStarHeader { finalizeHeader a with
          checksum := archive_write_header_checksum (finalizeHeader a)
        }).string_table_size ≤ (archive_finalize a).2.length from by
      rw [hcsto', hcsts', archive_finalize_file_length]; omega)]
    have hslice : (((archive_finalize a).2.drop
        (canonStarHeader { finalizeHeader a with
          checksum := archive_write_header_checksum (finalizeHeader a)
        }).string_table_offset).take
        (canonStarHeader { finalizeHeader a with
          checksum := archive_write_header_checksum (finalizeHeader a)
        }).string_table_size) = a.stringTable := by
      rw [hcsto', hcsts', archive_finalize_file a, List.append_assoc]
      rw [drop_append_exact _ _ _ (by
        rw [List.length_append, encodeStarHeader_length, memberTable_length,
            finalize_members_length])]
      exact take_append_exact _ _ _ rfl
    rw [hslice]
    have hparse : parseMembers
        (canonStarHeader { finalizeHeader a with
          checksum := archive_write_header_checksum (finalizeHeader a)
        }).member_count
        ((archive_finalize a).2.drop
          (canonStarHeader { finalizeHeader a with
            checksum := archive_write_header_checksum (finalizeHeader a)
          }).member_table_offset) =
        some ((archive_finalize a).1.members.map (fun m => m.header)) := by
      rw [hcmto, hcc']
      rw [archive_finalize_file a, List.append_assoc, List.append_assoc]
      rw [show (64 : Nat) = (encodeStarHeader { finalizeHeader a with
            checksum := archive_write_header_checksum (finalizeHeader a) }).length
          from (encodeStarHeader_length _).symm]
      rw [drop_append_exact _ _ _ rfl]
      rw [show (archive_finalize a).1.members.map
            (fun m => encodeStarMemberHeader m.header) =
          ((archive_finalize a).1.members.map (fun m => m.header)).map
            encodeStarMemberHeader from by rw [List.map_map]; rfl]
      rw [show a.members.length =
          ((archive_finalize a).1.members.map (fun m => m.header)).length from by
        rw [List.length_map, finalize_members_length]]
      rw [parseMembers_encode]
      rw [finalize_canon_id a ops hF2 hTL32]
    rw [hparse, hcsts']

theorem finalizedHeader_valid (a : ArchiveFile)
    (hn32 : a.members.length ≤ 65535) :
    archive_validate_header (finalizedHeader a) = true := by
  obtain ⟨hcm, hcv, hcc, hcmto, hcsto, hcsts⟩ := canonFinalizeHeader_fields a
  unfold finalizedHeader
  refine (archive_validate_header_iff _).2 ⟨?_, ?_, ?_, ?_, ?_⟩
  · rw [hcm]; simp
  · rw [hcv]; simp
  · rw [hcc]; simp only [STAR_MAX_MEMBERS]; omega
  · rw [hcmto]; simp only [starHeaderSize]; omega
  · rw [hcsto]; simp only [starHeaderSize]; omega

theorem decodedMembersOf_length (a : ArchiveFile) :
    (decodedMembersOf a).length = a.members.length := by
  unfold decodedMembersOf
  rw [List.length_map, List.length_map, finalize_members_length]

theorem decodedMembersOf_getQ (a : ArchiveFile) (i : Nat)
    (h : i < (archive_finalize a).1.members.length) :
    (decodedMembersOf a)[i]? =
      some { header := ((archive_finalize a).1.members.get ⟨i, h⟩).header
             name := if ((archive_finalize a).1.members.get
                    ⟨i, h⟩).header.name_offset < a.stringTable.length
                  then some (strAt a.stringTable
                    ((archive_finalize a).1.members.get ⟨i, h⟩).header.name_offset)
                  else none } := by
  unfold decodedMembersOf
  rw [List.getElem?_map, List.getElem?_map, List.getElem?_eq_getElem h]
  rfl

theorem decodeArchive_eq_of (f : List Nat) (h : StarHeader)
    (ms : List DecodedMember)
    (hopen : archive_open_read f = some h)
    (hload : archive_load_members f h = some ms) :
    decodeArchive f = some (h, ms) := by
  unfold decodeArchive
  rw [hopen]
  show (archive_load_members f h).map (fun ms2 => (h, ms2)) = _
  rw [hload]
  rfl

theorem decodeArchive_none_of (f : List Nat)
    (hopen : archive_open_read f = none) : decodeArchive f = none := by
  unfold decodeArchive
  rw [hopen]

theorem archive_open_read_finalize_none (a : ArchiveFile)
    (hval : archive_validate_header (canonStarHeader { finalizeHeader a with
        checksum := archive_write_header_checksum (finalizeHeader a) }) = false) :
    archive_open_read (archive_finalize a).2 = none := by
  rw [archive_finalize_file a, List.append_assoc, List.append_assoc]
  unfold archive_open_read
  rw [parseStarHeader_encode]
  show (if archive_validate_header _ then _ else none) = none
  rw [hval]
  simp

theorem decodeArchive_finalize (a : ArchiveFile) (ops : List ArchiveAddOp)
    (hF2 : List.Forall₂ (MemberMatches a.stringTable) a.members ops)
    (hTL1 : 1 ≤ a.stringTable.length)
    (hTL32 : a.stringTable.length < 2 ^ 32)
    (hn32 : a.members.length ≤ 65535) :
    decodeArchive (archive_finalize a).2 =
      some (finalizedHeader a, decodedMembersOf a) :=
  decodeArchive_eq_of (archive_finalize a).2 (finalizedHeader a)
    (decodedMembersOf a)
    (archive_open_read_finalize a (finalizedHeader_valid a hn32))
    (archive_load_members_finalize a ops hF2 hTL1 hTL32 hn32)

theorem decodedMembersOf_spec (a : ArchiveFile) (ops : List ArchiveAddOp)
    (hF2 : List.Forall₂ (MemberMatches a.stringTable) a.members ops)
    (hdata : ∀ op ∈ ops, op.data.length < 2 ^ 32)
    (hfits : 64 + 128 * a.members.length + a.stringTable.length +
      (ops.map (fun op => op.data.length)).sum < 2 ^ 32)
    (i : Nat) (hi : i < ops.length) :
    ∃ d op, (decodedMembersOf a)[i]? = some d ∧ ops[i]? = some op ∧
      d.name = some op.name ∧
      d.header.size = op.data.length ∧
      d.header.checksum = archive_calculate_checksum op.data ∧
      (((archive_finalize a).2.drop d.header.data_offset).take
        d.header.size) = op.data := by
  have hlenA : a.members.length = ops.length := hF2.length_eq
  have hiA : i < a.members.length := by omega
  have hifin : i < (archive_finalize a).1.members.length := by
    rw [finalize_members_length]; exact hiA
  have hget := patchDataOffsets_get a.members
    (((finalizeHeader a).string_table_offset +
      (finalizeHeader a).string_table_size) % 2 ^ 32)
    (Nat.mod_lt _ (by norm_num)) i hiA
  have hgi : ((archive_finalize a).1.members.get ⟨i, hifin⟩) =
      { a.members.get ⟨i, hiA⟩ with
          header := { (a.members.get ⟨i, hiA⟩).header with
            data_offset := ((((finalizeHeader a).string_table_offset +
              (finalizeHeader a).string_table_size) % 2 ^ 32) +
              sumSizes (a.members.take i)) % 2 ^ 32 } } := hget
  have hR := (List.forall₂_iff_get.mp hF2).2 i hiA (by omega)
  obtain ⟨hR1, hR2, hR3, hR4, hR5, hR6, hR7, hR8, hR9, hR10⟩ := hR
  have hpsum : sumSizes (a.members.take i) =
      ((ops.take i).map (fun op => op.data.length)).sum :=
    sumSizes_eq a.stringTable _ _ (List.forall₂_take i hF2)
      (fun x hx => hdata x (List.take_subset i ops hx))
  have hsum_split : (ops.map (fun op => op.data.length)).sum =
      ((ops.take i).map (fun op => op.data.length)).sum +
      ((ops.drop i).map (fun op => op.data.length)).sum := by
    conv_lhs => rw [← List.take_append_drop i ops]
    rw [List.map_append, List.sum_append]
  have hD : (((finalizeHeader a).string_table_offset +
        (finalizeHeader a).string_table_size) % 2 ^ 32 +
        sumSizes (a.members.take i)) % 2 ^ 32 =
      64 + 128 * a.members.length + a.stringTable.length +
        ((ops.take i).map (fun op => op.data.length)).sum := by
    rw [hpsum]
    simp only [finalizeHeader, starHeaderSize, starMemberHeaderSize]
    omega
  have hno : ((archive_finalize a).1.members.get ⟨i, hifin⟩).header.name_offset =
      (a.members.get ⟨i, hiA⟩).header.name_offset :=
    congrArg (fun m => m.header.name_offset) hgi
  have hsz : ((archive_finalize a).1.members.get ⟨i, hifin⟩).header.size =
      (a.members.get ⟨i, hiA⟩).header.size :=
    congrArg (fun m => m.header.size) hgi
  have hck : ((archive_finalize a).1.members.get ⟨i, hifin⟩).header.checksum =
      (a.members.get ⟨i, hiA⟩).header.checksum :=
    congrArg (fun m => m.header.checksum) hgi
  have hdo : ((archive_finalize a).1.members.get ⟨i, hifin⟩).header.data_offset =
      64 + 128 * a.members.length + a.stringTable.length +
        ((ops.take i).map (fun op => op.data.length)).sum :=
    (congrArg (fun m => m.header.data_offset) hgi).trans hD
  have hszop : ((archive_finalize a).1.members.get ⟨i, hifin⟩).header.size =
      (ops.get ⟨i, hi⟩).data.length := by
    rw [hsz, hR3, Nat.mod_eq_of_lt (hdata _ (List.get_mem ops i hi))]
  refine ⟨_, ops.get ⟨i, hi⟩, decodedMembersOf_getQ a i hifin,
    List.getElem?_eq_getElem hi, ?_, ?_, ?_, ?_⟩
  · show (if ((archive_finalize a).1.members.get ⟨i, hifin⟩).header.name_offset <
          a.stringTable.length
        then some (strAt a.stringTable
          ((archive_finalize a).1.members.get ⟨i, hifin⟩).header.name_offset)
        else none) = some (ops.get ⟨i, hi⟩).name
    rw [hno, if_pos hR9, hR10]
  · show ((archive_finalize a).1.members.get ⟨i, hifin⟩).header.size =
        (ops.get ⟨i, hi⟩).data.length
    exact hszop
  · show ((archive_finalize a).1.members.get ⟨i, hifin⟩).header.checksum =
        archive_calculate_checksum (ops.get ⟨i, hi⟩).data
    rw [hck, hR5]
  · show (((archive_finalize a).2.drop
          ((archive_finalize a).1.members.get ⟨i, hifin⟩).header.data_offset).take
        ((archive_finalize a).1.members.get ⟨i, hifin⟩).header.size) =
        (ops.get ⟨i, hi⟩).data
    rw [hdo, hszop, archive_finalize_file a]
    rw [drop_append_plus _ _ _ _ (by
      rw [List.length_append, List.length_append, encodeStarHeader_length,
          memberTable_length, finalize_members_length])]
    rw [payloads_eq a.stringTable a.members ops hF2 hdata]
    have hflat := flatten_drop_take (ops.map (fun op => op.data)) i
      (by rw [List.length_map]; exact hi)
    rw [show ((((ops.map fun op => op.data).take i).map List.length).sum) =
        ((ops.take i).map (fun op => op.data.length)).sum from by
      rw [← List.map_take, List.map_map]; rfl] at hflat
    rw [show ((ops.map fun op => op.data).get
          ⟨i, by rw [List.length_map]; exact hi⟩) =
        (ops.get ⟨i, hi⟩).data from by rw [List.get_map]] at hflat
    exact hflat

theorem finalize_roundtrip_core (a : ArchiveFile) (ops : List ArchiveAddOp)
    (hF2 : List.Forall₂ (MemberMatches a.stringTable) a.members ops)
    (hdata : ∀ op ∈ ops, op.data.length < 2 ^ 32)
    (hn32 : a.members.length ≤ 65535)
    (hTL1 : 1 ≤ a.stringTable.length)
    (hfits : 64 + 128 * a.members.length + a.stringTable.length +
      (ops.map (fun op => op.data.length)).sum < 2 ^ 32) :
    ∃ hdr dms,
      decodeArchive (archive_finalize a).2 = some (hdr, dms) ∧
      dms.length = ops.length ∧
      (∀ i, i < ops.length →
        ∃ d op, dms[i]? = some d ∧ ops[i]? = some op ∧
          d.name = some op.name ∧
          d.header.size = op.data.length ∧
          d.header.checksum = archive_calculate_checksum op.data ∧
          (((archive_finalize a).2.drop d.header.data_offset).take
            d.header.size) = op.data) := by
  have hTL32 : a.stringTable.length < 2 ^ 32 := by omega
  have hlenA : a.members.length = ops.length := hF2.length_eq
  refine ⟨finalizedHeader a, decodedMembersOf a,
    decodeArchive_finalize a ops hF2 hTL1 hTL32 hn32, ?_, ?_⟩
  · rw [decodedMembersOf_length]; exact hlenA
  · intro i hi
    exact decodedMembersOf_spec a ops hF2 hdata hfits i hi

theorem archive_finalize_io_some (a : ArchiveFile) (r : ArchiveFile × List Nat)
    (h : archive_finalize_io a = some r) : r = archive_finalize a := by
  unfold archive_finalize_io at h
  by_cases hc : (finalizeHeader a).string_table_size ≠ 0 ∧
      ∀ m ∈ a.members, m.header.size ≠ 0
  · rw [if_pos hc] at h
    exact (Option.some_inj.mp h).symm
  · rw [if_neg hc] at h
    exact absurd h (by simp)

/-! ## Claim C3 -/

/-- C3 counterexample: an archive built from 65536 successful
`archive_add_member_from_file` calls finalizes successfully, but
re-opening the produced file fails (`archive_open` returns NULL),
because `archive_validate_header` rejects `member_count` 65536 >
`STAR_MAX_MEMBERS`; so the decode does not yield the members back,
contradicting the claim's unrestricted "any sequence of calls". -/
theorem claim_C3_counterexample :
    archC3big.members.length = 65536 ∧
    65536 > STAR_MAX_MEMBERS ∧
    decodeArchive (archive_finalize archC3big).2 = none := by
  have hcount : archC3big.members.length = 65536 := by
    rw [show archC3big =
          (fun a => archive_add_member a [109] [1] 0)^[65536]
            (archive_create 0x10 0) from rfl,
        iterate_add_count]
    simp [archive_create]
  have hc : (canonStarHeader
      { finalizeHeader archC3big with
          checksum := archive_write_header_checksum (finalizeHeader archC3big)
      }).member_count = 65536 := by
    rw [(canonFinalizeHeader_fields archC3big).2.2.1, hcount,
        Nat.mod_eq_of_lt (show 65536 < 2 ^ 32 by norm_num)]
  have hval : archive_validate_header (canonStarHeader
      { finalizeHeader archC3big with
          checksum := archive_write_header_checksum (finalizeHeader archC3big) }) =
      false := by
    refine Bool.eq_false_iff.mpr (fun hb => ?_)
    obtain ⟨-, -, h3, -⟩ := (archive_validate_header_iff _).1 hb
    rw [hc] at h3
    exact h3 (by norm_num [STAR_MAX_MEMBERS])
  exact ⟨hcount, by norm_num [STAR_MAX_MEMBERS],
    decodeArchive_none_of _ (archive_open_read_finalize_none archC3big hval)⟩

/-- C3 (amended): build an archive by `archive_create` followed by a
sequence of successful `archive_add_member_from_file` calls whose member
names contain no NUL byte, with at most `STAR_MAX_MEMBERS` = 65535
members, each payload shorter than 2^32 bytes and the whole produced
file smaller than 2^32 bytes.  If `archive_finalize` then succeeds and
produces the file bytes (`archive_finalize_io = some` — it fails with
`ERROR_FILE_IO` before writing the header whenever the string table or
a stored member size is 0, because `fwrite` with size 0 returns 0),
re-opening those bytes (`archive_open` + `archive_load_members`) yields
the same members in the same order: the decoded list has one entry per
call, and the entry at each index carries that call's member name, the
length of the bytes that were added as its `size`, the CRC-32 of those
bytes as its stored `checksum`, and the file bytes at its `data_offset`
are exactly the bytes that were added. -/
theorem claim_C3_roundtrip (flags ctime : Nat) (ops : List ArchiveAddOp)
    (hnames : ∀ op ∈ ops, 0 ∉ op.name)
    (hcount : ops.length ≤ 65535)
    (hdata : ∀ op ∈ ops, op.data.length < 2 ^ 32)
    (hfits : 64 + 128 * ops.length +
        (buildArchive flags ctime ops).stringTable.length +
        (ops.map (fun op => op.data.length)).sum < 2 ^ 32)
    (arch : ArchiveFile) (file : List Nat)
    (hfin : archive_finalize_io (buildArchive flags ctime ops) =
      some (arch, file)) :
    ∃ hdr dms,
      decodeArchive file = some (hdr, dms) ∧
      dms.length = ops.length ∧
      (∀ i, i < ops.length →
        ∃ d op, dms[i]? = some d ∧ ops[i]? = some op ∧
          d.name = some op.name ∧
          d.header.size = op.data.length ∧
          d.header.checksum = archive_calculate_checksum op.data ∧
          ((file.drop d.header.data_offset).take d.header.size) = op.data) := by
  obtain ⟨hWF, -, -, hF2⟩ := buildArchive_invariant flags ctime ops hnames
  have hlen : (buildArchive flags ctime ops).members.length = ops.length :=
    hF2.length_eq
  have hTL1 : 1 ≤ (buildArchive flags ctime ops).stringTable.length := by
    have := List.length_pos.mpr hWF.1
    omega
  have hfile : file = (archive_finalize (buildArchive flags ctime ops)).2 :=
    congrArg Prod.snd (archive_finalize_io_some _ _ hfin)
  rw [hfile]
  exact finalize_roundtrip_core (buildArchive flags ctime ops) ops hF2 hdata
    (by rw [hlen]; exact hcount) hTL1 (by rw [hlen]; exact hfits)

/-- Witness for C3 (amended): every hypothesis holds for the archive
built from the empty sequence of calls — in particular
`archive_finalize` succeeds on it — and the round-trip theorem
applies. -/
theorem claim_C3_roundtrip_witness :
    ((∀ op ∈ ([] : List ArchiveAddOp), 0 ∉ op.name) ∧
     ([] : List ArchiveAddOp).length ≤ 65535 ∧
     (∀ op ∈ ([] : List ArchiveAddOp), op.data.length < 2 ^ 32) ∧
     64 + 128 * ([] : List ArchiveAddOp).length +
        (buildArchive 16 0 []).stringTable.length +
        (([] : List ArchiveAddOp).map (fun op => op.data.length)).sum <
       2 ^ 32 ∧
     archive_finalize_io (buildArchive 16 0 []) =
       some ((archive_finalize (buildArchive 16 0 [])).1,
         (archive_finalize (buildArchive 16 0 [])).2)) ∧
    (∃ hdr dms,
      decodeArchive (archive_finalize (buildArchive 16 0 [])).2 =
        some (hdr, dms) ∧
      dms.length = ([] : List ArchiveAddOp).length ∧
      (∀ i, i < ([] : List ArchiveAddOp).length →
        ∃ d op, dms[i]? = some d ∧ ([] : List ArchiveAddOp)[i]? = some op ∧
          d.name = some op.name ∧
          d.header.size = op.data.length ∧
          d.header.checksum = archive_calculate_checksum op.data ∧
          (((archive_finalize (buildArchive 16 0 [])).2.drop
              d.header.data_offset).take d.header.size) = op.data)) :=
  ⟨⟨by decide, by decide, by decide, by decide, rfl⟩,
   claim_C3_roundtrip 16 0 [] (by decide) (by decide) (by decide) (by decide)
     (archive_finalize (buildArchive 16 0 [])).1
     (archive_finalize (buildArchive 16 0 [])).2 rfl⟩

/-! ## Claim C7 -/

/-- C7 counterexample: in a two-member archive whose first member is
`2^32 - 1` bytes long, the second member's `data_offset` field after
`archive_finalize` is 324 — the `uint32_t` cursor wraps — while the
claim's exact sum `string_table_offset + string_table_size +
(size of member 0)` is `320 + 5 + (2^32 - 1)`. -/
theorem claim_C7_counterexample :
    ((archive_finalize archC7).1.members.map (fun m => m.header.data_offset)) =
      [325, 324] ∧
    (finalizeHeader archC7).string_table_offset = 320 ∧
    archC7.stringTable.length = 5 ∧
    sumSizes (archC7.members.take 1) = 2 ^ 32 - 1 ∧
    (324 : Nat) ≠ 320 + 5 + (2 ^ 32 - 1) := by
  have hf1 : findStringFrom [0] [97] 0 = none := by
    simp [findStringFrom, strAt]
  have hf2 : findStringFrom [0, 97, 0] [98] 0 = none := by
    simp [findStringFrom, strAt]
  have hgen : ∀ d : List Nat, d.length = 2 ^ 32 - 1 →
      buildArchive 0x10 0
          [{ name := [97], data := d, mtime := 0 },
           { name := [98], data := [1, 2, 3], mtime := 0 }] =
        { flags := 0x10
          creation_time := 0
          members :=
            [{ header := { name_offset := 1, size := 2 ^ 32 - 1,
                           compressed_size := 2 ^ 32 - 1, data_offset := 0,
                           checksum := archive_calculate_checksum d,
                           timestamp := 0, flags := 0, compression := 0 },
               name := [97], data := d },
             { header := { name_offset := 3, size := 3,
                           compressed_size := 3, data_offset := 0,
                           checksum := archive_calculate_checksum [1, 2, 3],
                           timestamp := 0, flags := 0, compression := 0 },
               name := [98], data := [1, 2, 3] }]
          stringTable := [0, 97, 0, 98, 0] } := by
    intro d hd
    simp [buildArchive, archive_create, archive_add_member, archive_add_string,
          hf1, hf2, hd]
  have hmain : ∀ d : List Nat, d.length = 2 ^ 32 - 1 →
      ((archive_finalize (buildArchive 0x10 0
          [{ name := [97], data := d, mtime := 0 },
           { name := [98], data := [1, 2, 3], mtime := 0 }])).1.members.map
        (fun m => m.header.data_offset)) = [325, 324] ∧
      (finalizeHeader (buildArchive 0x10 0
          [{ name := [97], data := d, mtime := 0 },
           { name := [98], data := [1, 2, 3], mtime := 0 }])).string_table_offset =
        320 ∧
      (buildArchive 0x10 0
          [{ name := [97], data := d, mtime := 0 },
           { name := [98], data := [1, 2, 3], mtime := 0 }]).stringTable.length =
        5 ∧
      sumSizes ((buildArchive 0x10 0
          [{ name := [97], data := d, mtime := 0 },
           { name := [98], data := [1, 2, 3], mtime := 0 }]).members.take 1) =
        2 ^ 32 - 1 ∧
      (324 : Nat) ≠ 320 + 5 + (2 ^ 32 - 1) := by
    intro d hd
    rw [hgen d hd]
    refine ⟨?_, by norm_num [finalizeHeader, starHeaderSize, starMemberHeaderSize],
            by norm_num, by norm_num [sumSizes], by norm_num⟩
    rw [finalize_members_eq]
    norm_num [finalizeHeader, patchDataOffsets, starHeaderSize,
              starMemberHeaderSize]
  exact hmain (List.replicate (2 ^ 32 - 1) 7) (List.length_replicate _ _)

/-- C7 amended: after `archive_finalize` on an archive with `n`
members, `member_table_offset` is 64 and `string_table_offset` is
`(64 + 128·n) mod 2^32`; the file bytes carry the string table right
after the member table and the member payloads, in member-table order,
immediately after the string table; and each member's `data_offset`
field equals `(64 + 128·n + string-table length + sum of the sizes of
the preceding members) mod 2^32` — the claim's exact equation holds
whenever that quantity fits in 32 bits, and is taken mod `2^32` (the
`uint32_t` cursor) otherwise. -/
theorem claim_C7_finalize_layout (a : ArchiveFile) :
    (finalizeHeader a).member_table_offset = 64 ∧
    (finalizeHeader a).string_table_offset =
      (64 + 128 * a.members.length) % 2 ^ 32 ∧
    (((archive_finalize a).2.drop (64 + 128 * a.members.length)).take
        a.stringTable.length) = a.stringTable ∧
    (archive_finalize a).2.drop
        (64 + 128 * a.members.length + a.stringTable.length) =
      (a.members.map (fun m => m.data.take m.header.size)).flatten ∧
    ∀ (i : Nat) (hi : i < a.members.length),
      ((archive_finalize a).1.members.get
          ⟨i, (finalize_members_length a).symm ▸ hi⟩).header.data_offset =
        (64 + 128 * a.members.length + a.stringTable.length +
          sumSizes (a.members.take i)) % 2 ^ 32 := by
  have hlen2 :
      (encodeStarHeader
          { finalizeHeader a with
              checksum := archive_write_header_checksum (finalizeHeader a) } ++
        (((archive_finalize a).1.members).map
          (fun m => encodeStarMemberHeader m.header)).flatten).length =
      64 + 128 * a.members.length := by
    rw [List.length_append, encodeStarHeader_length, memberTable_length,
        finalize_members_length]
  refine ⟨rfl, ?_, ?_, ?_, ?_⟩
  · simp only [finalizeHeader, starHeaderSize, starMemberHeaderSize]
    omega
  · rw [archive_finalize_file, List.append_assoc, List.append_assoc,
        ← List.append_assoc]
    rw [drop_append_exact _ _ _ hlen2]
    exact take_append_exact _ _ _ rfl
  · rw [archive_finalize_file, List.append_assoc, List.append_assoc,
        ← List.append_assoc, ← List.append_assoc]
    refine drop_append_exact _ _ _ ?_
    rw [List.length_append, hlen2]
  · intro i hi
    have hstart :
        ((finalizeHeader a).string_table_offset +
          (finalizeHeader a).string_table_size) % 2 ^ 32 < 2 ^ 32 :=
      Nat.mod_lt _ (by norm_num)
    have hget := patchDataOffsets_get a.members
      (((finalizeHeader a).string_table_offset +
        (finalizeHeader a).string_table_size) % 2 ^ 32) hstart i hi
    have hdo : ((archive_finalize a).1.members.get
        ⟨i, (finalize_members_length a).symm ▸ hi⟩).header.data_offset =
        ((((finalizeHeader a).string_table_offset +
          (finalizeHeader a).string_table_size) % 2 ^ 32) +
          sumSizes (a.members.take i)) % 2 ^ 32 :=
      congrArg (fun m => m.header.data_offset) hget
    rw [hdo]
    simp only [finalizeHeader, starHeaderSize, starMemberHeaderSize]
    omega

theorem archW_members_pos : 0 < archW.members.length := by
  have hf1 : findStringFrom [0] [97] 0 = none := by
    simp [findStringFrom, strAt]
  simp [archW, buildArchive, archive_create, archive_add_member,
        archive_add_string, hf1]

theorem claim_C7_finalize_layout_witness :
    ((archive_finalize archW).1.members.get
        ⟨0, (finalize_members_length archW).symm ▸
          archW_members_pos⟩).header.data_offset =
      (64 + 128 * archW.members.length + archW.stringTable.length +
        sumSizes (archW.members.take 0)) % 2 ^ 32 :=
  (claim_C7_finalize_layout archW).2.2.2.2 0 archW_members_pos

/-! ## Claim C4 -/

/-- C4 (code bug): for the archive produced by `archive_create` (LE
flags, creation time 0) and finalized empty, the checksum stored by
`archive_write_header` — the CRC-32 of the first
`sizeof(star_header_t) - sizeof(uint32_t)` = 60 header bytes, with the
checksum field still at its pre-call value — differs from the claimed
CRC-32 of the whole 64-byte header with the checksum field zeroed.
The code's own comment says "excluding checksum field", but the
checksum field sits at byte offset 36, inside the first 60 bytes; the
subtraction drops 4 reserved tail bytes instead. -/
theorem claim_C4_header_checksum :
    archive_write_header_checksum (finalizeHeader (archive_create 0x10 0)) ≠
      archive_calculate_checksum
        (encodeStarHeader (finalizeHeader (archive_create 0x10 0))) := by
  have e60 : (encodeStarHeader (finalizeHeader (archive_create 0x10 0))).take
      (starHeaderSize - 4) =
      [82, 65, 84, 83, 1, 0, 16, 0, 0, 0, 0, 0, 0, 0, 0, 0, 0, 0, 0, 0,
       64, 0, 0, 0, 64, 0, 0, 0, 1, 0, 0, 0, 0, 0, 0, 0, 0, 0, 0, 0,
       0, 0, 0, 0, 0, 0, 0, 0, 0, 0, 0, 0, 0, 0, 0, 0, 0, 0, 0, 0] := by decide
  have e64 : encodeStarHeader (finalizeHeader (archive_create 0x10 0)) =
      [82, 65, 84, 83, 1, 0, 16, 0, 0, 0, 0, 0, 0, 0, 0, 0, 0, 0, 0, 0,
       64, 0, 0, 0, 64, 0, 0, 0, 1, 0, 0, 0, 0, 0, 0, 0, 0, 0, 0, 0,
       0, 0, 0, 0, 0, 0, 0, 0, 0, 0, 0, 0, 0, 0, 0, 0, 0, 0, 0, 0,
       0, 0, 0, 0] := by decide
  have v60 : archive_calculate_checksum
      [82, 65, 84, 83, 1, 0, 16, 0, 0, 0, 0, 0, 0, 0, 0, 0, 0, 0, 0, 0,
       64, 0, 0, 0, 64, 0, 0, 0, 1, 0, 0, 0, 0, 0, 0, 0, 0, 0, 0, 0,
       0, 0, 0, 0, 0, 0, 0, 0, 0, 0, 0, 0, 0, 0, 0, 0, 0, 0, 0, 0] =
      0x184ebd7a := by
    simp [archive_calculate_checksum, crcUpdate, crc32_table, crc32_step,
          Function.iterate_succ_apply, Function.iterate_zero_apply]
  have v64 : archive_calculate_checksum
      [82, 65, 84, 83, 1, 0, 16, 0, 0, 0, 0, 0, 0, 0, 0, 0, 0, 0, 0, 0,
       64, 0, 0, 0, 64, 0, 0, 0, 1, 0, 0, 0, 0, 0, 0, 0, 0, 0, 0, 0,
       0, 0, 0, 0, 0, 0, 0, 0, 0, 0, 0, 0, 0, 0, 0, 0, 0, 0, 0, 0,
       0, 0, 0, 0] = 0x95d6087a := by
    simp [archive_calculate_checksum, crcUpdate, crc32_table, crc32_step,
          Function.iterate_succ_apply, Function.iterate_zero_apply]
  rw [archive_write_header_checksum, e60, e64, v60, v64]
  decide

theorem claim_C10_memory_pool_witness :
    (runPoolOps pool64 [.alloc 16, .calloc 2 8, .free, .reset, .alloc 8]).used ≤ 64 ∧
    ((memory_pool_alloc pool64 8).2 = true ↔
      (8 : Nat) ≠ 0 ∧
      (pool64.used + memory_align_size 8 pool64.alignment) % SIZE_T_MOD ≤ pool64.size) ∧
    memory_align_size 5 MEMORY_POOL_ALIGN = (5 + 7) / 8 * 8 ∧
    (memory_pool_reset pool64).used = 0 :=
  ⟨claim_C10_memory_pool.1 64 pool64 (by decide) _,
   (claim_C10_memory_pool.2.1 pool64 8).1,
   claim_C10_memory_pool.2.2.1 5 (by decide),
   claim_C10_memory_pool.2.2.2 pool64⟩

end Stld
